import Mathlib

/-
TinyOS verification.

Shallow embeddings of the TinyOS kernel subsystems that the specification
claims talk about, translated from the C sources:

* `Alloc`   : src/kernel/memory.c        (first-fit coalescing heap allocator)
* `EvRing`  : src/c/kernel/event.c       (SPSC input-event ring)
* `Fs`      : src/kernel/fs.c            (TinyFS filesystem)
* `Tcp`     : src/kernel/tcp.c           (TCP state machine)
* `Dns`     : src/kernel/net/net.c       (DNS response handling)
* `Ws`      : src/kernel/websocket.c     (WebSocket frame codec)
* `Http`    : src/kernel/http.c          (URL parser)

Machine integers are modelled as `Nat` with explicit `% 2 ^ w` where wrapping
is possible; byte buffers are `List Nat` of values `< 256`; fallible
operations return `Option` or a sentinel matching the C return value.
-/

namespace Alloc

/-
memory.c: the heap is a physical-order singly linked list of blocks
`{size, next, is_free, magic}`.  Every operation of the program keeps the
`next` pointer equal to the physically adjacent block (`heap_init` makes one
block; `malloc` splits a block into two adjacent ones; `free` merges
adjacent ones), so the heap is embedded as the physical-order list of
blocks, each block carrying its total size (header included) and free flag.
The `magic` field is `0xDEADBEEF` for every block the model ever creates,
so the magic validation in `malloc` never aborts the walk; `free` on a
pointer that is not a live payload pointer is the magic-check / double-free
silent no-op of lines 126-134, modelled by an out-of-range or already-free
index.
-/

structure Block where
  size : Nat
  isFree : Bool
  deriving Repr, DecidableEq

/-- `sizeof(block_header_t)` = 8 (size) + 8 (next) + 4 (is_free) + 4 (magic). -/
def HEADER_SIZE : Nat := 24

/-- memory.c line 20: minimum useful block. -/
def MIN_BLOCK_SIZE : Nat := HEADER_SIZE + 16

/-- memory.c line 24: `ALIGN(x) = (x + 15) & ~15`, i.e. round up to 16. -/
def align16 (x : Nat) : Nat := (x + 15) / 16 * 16

/-- memory.c lines 71-74: total block size for a request of `sz` bytes. -/
def totalSize (sz : Nat) : Nat :=
  let t := align16 (HEADER_SIZE + sz)
  if t < MIN_BLOCK_SIZE then MIN_BLOCK_SIZE else t

/-- memory.c lines 77-110: the first-fit walk of `malloc`, as a transformation
of the block list.  The first free block with `total ≤ size` is taken; it is
split when the remainder is at least `MIN_BLOCK_SIZE`. -/
def mallocWalk (total : Nat) : List Block → List Block
  | [] => []
  | b :: rest =>
    if b.isFree ∧ total ≤ b.size then
      if total + MIN_BLOCK_SIZE ≤ b.size then
        ⟨total, false⟩ :: ⟨b.size - total, true⟩ :: rest
      else
        ⟨b.size, false⟩ :: rest
    else b :: mallocWalk total rest

/-- memory.c `malloc`: `size == 0` returns NULL without touching the heap. -/
def malloc (sz : Nat) (bs : List Block) : List Block :=
  if sz = 0 then bs else mallocWalk (totalSize sz) bs

/-- The payload address returned by `malloc`, as an offset from the 16-aligned
heap start (memory.c line 106: payload = block address + `HEADER_SIZE`).
`none` is the NULL return. -/
def mallocAddrWalk (total : Nat) (base : Nat) : List Block → Option Nat
  | [] => none
  | b :: rest =>
    if b.isFree ∧ total ≤ b.size then some (base + HEADER_SIZE)
    else mallocAddrWalk total (base + b.size) rest

def mallocAddr (sz : Nat) (bs : List Block) : Option Nat :=
  if sz = 0 then none else mallocAddrWalk (totalSize sz) 0 bs

/-
memory.c lines 119-165, `free`, acting on the block at list index `i`:
 * invalid pointer (out of range) or already-free block: silent no-op
   (magic / double-free checks, lines 126-134);
 * mark free (line 137); merge with the next block if free (lines 141-144);
 * predecessor walk (lines 148-164): starting from the head, the only
   iterations that can fire are the one whose `current` is the physical
   predecessor `p` of the freed block (`current->is_free && current->next ==
   block`, merge and break) and, one node earlier, the three-way branch
   (`current->next == p`, `p` free, `p->next == block`), which performs the
   same merge of `p` with the freed block.  Either way the effect is: merge
   with the predecessor exactly when it is free.  After a three-way merge
   the loop keeps scanning, but no later branch can fire: the only node
   whose `next` pointed at the freed header has just been redirected past
   it, so the walk terminates without further modification.
-/
def freeRun : Nat → List Block → List Block
  | _, [] => []
  | 0, b :: rest =>
    if b.isFree then b :: rest
    else
      match rest with
      | c :: rest2 =>
        if c.isFree then ⟨b.size + c.size, true⟩ :: rest2
        else ⟨b.size, true⟩ :: c :: rest2
      | [] => [⟨b.size, true⟩]
  | 1, [a] => [a]
  | 1, a :: b :: rest =>
    if b.isFree then a :: b :: rest
    else
      let m : Block × List Block :=
        match rest with
        | c :: rest2 =>
          if c.isFree then (⟨b.size + c.size, true⟩, rest2)
          else (⟨b.size, true⟩, c :: rest2)
        | [] => (⟨b.size, true⟩, [])
      if a.isFree then ⟨a.size + m.1.size, true⟩ :: m.2
      else a :: m.1 :: m.2
  | Nat.succ (Nat.succ i), a :: rest => a :: freeRun (Nat.succ i) rest

/-- A call in a client program: `malloc(sz)` or `free` of the payload pointer
of the block currently at physical index `i` (any other pointer is rejected
by the magic check and is a no-op). -/
inductive HeapOp where
  | alloc (sz : Nat)
  | dealloc (i : Nat)

def step (op : HeapOp) (bs : List Block) : List Block :=
  match op with
  | .alloc sz => malloc sz bs
  | .dealloc i => freeRun i bs

def run (ops : List HeapOp) (bs : List Block) : List Block :=
  ops.foldl (fun s op => step op s) bs

/-- memory.c `heap_init` (lines 41-60): one free block spanning the aligned
heap region. -/
def initHeap (heapSize : Nat) : List Block := [⟨heapSize, true⟩]

/-- No two physically adjacent blocks are both free. -/
def NoAdjFree (bs : List Block) : Prop :=
  List.Chain' (fun x y => ¬(x.isFree = true ∧ y.isFree = true)) bs

instance : DecidablePred NoAdjFree := fun bs => by
  unfold NoAdjFree; infer_instance

lemma mallocWalk_cons_split (total : Nat) (b : Block) (rest : List Block)
    (h1 : b.isFree = true) (h2 : total ≤ b.size)
    (h3 : total + MIN_BLOCK_SIZE ≤ b.size) :
    mallocWalk total (b :: rest) =
      ⟨total, false⟩ :: ⟨b.size - total, true⟩ :: rest := by
  simp [mallocWalk, h1, h2, h3]

lemma mallocWalk_cons_whole (total : Nat) (b : Block) (rest : List Block)
    (h1 : b.isFree = true) (h2 : total ≤ b.size)
    (h3 : ¬ (total + MIN_BLOCK_SIZE ≤ b.size)) :
    mallocWalk total (b :: rest) = ⟨b.size, false⟩ :: rest := by
  simp [mallocWalk, h1, h2, h3]

lemma mallocWalk_cons_skip (total : Nat) (b : Block) (rest : List Block)
    (h : ¬ (b.isFree = true ∧ total ≤ b.size)) :
    mallocWalk total (b :: rest) = b :: mallocWalk total rest := by
  simp only [mallocWalk, if_neg h]

lemma mallocWalk_head (total : Nat) (bs : List Block) :
    (mallocWalk total bs).head? = bs.head? ∨
      ∃ y, (mallocWalk total bs).head? = some y ∧ y.isFree = false := by
  cases bs with
  | nil => left; rfl
  | cons b rest =>
    by_cases h : b.isFree = true ∧ total ≤ b.size
    · by_cases h2 : total + MIN_BLOCK_SIZE ≤ b.size
      · right
        exact ⟨⟨total, false⟩, by rw [mallocWalk_cons_split total b rest h.1 h.2 h2]; rfl, rfl⟩
      · right
        exact ⟨⟨b.size, false⟩, by rw [mallocWalk_cons_whole total b rest h.1 h.2 h2]; rfl, rfl⟩
    · left
      rw [mallocWalk_cons_skip total b rest h]
      rfl

/-- `NoAdjFree` is preserved by consing a non-free block. -/
lemma noAdjFree_cons_of_not_free (a : Block) (l : List Block)
    (ha : ¬ a.isFree = true) (hl : NoAdjFree l) : NoAdjFree (a :: l) := by
  rw [NoAdjFree, List.chain'_cons']
  exact ⟨fun y _ hcon => ha hcon.1, hl⟩

/-- `NoAdjFree` is preserved by consing a free block onto a list whose head is
not free. -/
lemma noAdjFree_cons_of_head_not_free (x : Block) (l : List Block)
    (hhd : ∀ y ∈ l.head?, y.isFree = false) (hl : NoAdjFree l) :
    NoAdjFree (x :: l) := by
  rw [NoAdjFree, List.chain'_cons']
  refine ⟨?_, hl⟩
  intro y hy hcon
  have := hhd y hy
  rw [this] at hcon
  exact Bool.false_ne_true hcon.2

lemma mallocWalk_noAdjFree (total : Nat) (bs : List Block)
    (h : NoAdjFree bs) : NoAdjFree (mallocWalk total bs) := by
  induction bs with
  | nil => exact h
  | cons b rest ih =>
    rw [NoAdjFree, List.chain'_cons'] at h
    by_cases hb : b.isFree = true ∧ total ≤ b.size
    · by_cases h2 : total + MIN_BLOCK_SIZE ≤ b.size
      · rw [mallocWalk_cons_split total b rest hb.1 hb.2 h2]
        refine noAdjFree_cons_of_not_free _ _ (by simp) ?_
        refine noAdjFree_cons_of_head_not_free _ _ ?_ h.2
        intro y hy
        have := h.1 y hy
        by_contra hcon
        simp only [Bool.not_eq_false] at hcon
        exact this ⟨hb.1, hcon⟩
      · rw [mallocWalk_cons_whole total b rest hb.1 hb.2 h2]
        exact noAdjFree_cons_of_not_free _ _ (by simp) h.2
    · rw [mallocWalk_cons_skip total b rest hb]
      rw [NoAdjFree, List.chain'_cons']
      refine ⟨?_, ih h.2⟩
      intro y hy
      rcases mallocWalk_head total rest with heq | ⟨z, hz, hzf⟩
      · exact h.1 y (heq ▸ hy)
      · rw [hz] at hy
        cases hy
        simp [hzf]

lemma malloc_noAdjFree (sz : Nat) (bs : List Block)
    (h : NoAdjFree bs) : NoAdjFree (malloc sz bs) := by
  unfold malloc
  by_cases h0 : sz = 0
  · simpa [h0]
  · simpa [h0] using mallocWalk_noAdjFree (totalSize sz) bs h

lemma freeRun_head_isFree (i : Nat) (x : Block) (bs : List Block) :
    ∃ y, (freeRun (i + 1) (x :: bs)).head? = some y ∧ y.isFree = x.isFree := by
  match i, bs with
  | 0, [] => exact ⟨x, rfl, rfl⟩
  | 0, b :: rest =>
    by_cases hb : b.isFree = true
    · exact ⟨x, by simp [freeRun, hb], rfl⟩
    · cases rest with
      | nil =>
        by_cases hx : x.isFree = true
        · exact ⟨⟨x.size + b.size, true⟩, by simp [freeRun, hb, hx], by simp [hx]⟩
        · exact ⟨x, by simp [freeRun, hb, hx], rfl⟩
      | cons c rest2 =>
        by_cases hc : c.isFree = true
        · by_cases hx : x.isFree = true
          · exact ⟨⟨x.size + (b.size + c.size), true⟩,
              by simp [freeRun, hb, hc, hx], by simp [hx]⟩
          · exact ⟨x, by simp [freeRun, hb, hc, hx], rfl⟩
        · by_cases hx : x.isFree = true
          · exact ⟨⟨x.size + b.size, true⟩,
              by simp [freeRun, hb, hc, hx], by simp [hx]⟩
          · exact ⟨x, by simp [freeRun, hb, hc, hx], rfl⟩
  | Nat.succ j, bs => exact ⟨x, by simp [freeRun], rfl⟩

lemma freeRun_noAdjFree (i : Nat) (bs : List Block)
    (h : NoAdjFree bs) : NoAdjFree (freeRun i bs) := by
  induction i, bs using freeRun.induct with
  | case1 t => simpa [freeRun] using h
  | case2 b rest hb => simpa [freeRun, hb] using h
  | case3 b hb c rest2 hc =>
    rw [show freeRun 0 (b :: c :: rest2) = ⟨b.size + c.size, true⟩ :: rest2 by
      simp [freeRun, hb, hc]]
    rw [NoAdjFree, List.chain'_cons', List.chain'_cons'] at h
    refine noAdjFree_cons_of_head_not_free _ _ ?_ h.2.2
    intro y hy
    have := h.2.1 y hy
    by_contra hcon
    simp only [Bool.not_eq_false] at hcon
    exact this ⟨hc, hcon⟩
  | case4 b hb c rest2 hc =>
    rw [show freeRun 0 (b :: c :: rest2) = ⟨b.size, true⟩ :: c :: rest2 by
      simp [freeRun, hb, hc]]
    rw [NoAdjFree, List.chain'_cons'] at h
    refine noAdjFree_cons_of_head_not_free _ _ ?_ h.2
    intro y hy
    simp only [List.head?_cons, Option.mem_def, Option.some.injEq] at hy
    subst hy
    simpa using hc
  | case5 b hb =>
    rw [show freeRun 0 [b] = [⟨b.size, true⟩] by simp [freeRun, hb]]
    exact List.chain'_singleton _
  | case6 a => simpa [freeRun] using h
  | case7 a b rest hb => simpa [freeRun, hb] using h
  | case8 a b rest hb ha =>
    rw [NoAdjFree, List.chain'_cons'] at h
    have htl := h.2
    rw [List.chain'_cons'] at htl
    cases rest with
    | nil =>
      rw [show freeRun 1 [a, b] = [⟨a.size + b.size, true⟩] by
        simp [freeRun, hb, ha]]
      exact List.chain'_singleton _
    | cons c rest2 =>
      have hc2 := htl.2
      rw [List.chain'_cons'] at hc2
      by_cases hc : c.isFree = true
      · rw [show freeRun 1 (a :: b :: c :: rest2) =
          ⟨a.size + (b.size + c.size), true⟩ :: rest2 by
            simp [freeRun, hb, ha, hc]]
        refine noAdjFree_cons_of_head_not_free _ _ ?_ hc2.2
        intro y hy
        have := hc2.1 y hy
        by_contra hcon
        simp only [Bool.not_eq_false] at hcon
        exact this ⟨hc, hcon⟩
      · rw [show freeRun 1 (a :: b :: c :: rest2) =
          ⟨a.size + b.size, true⟩ :: c :: rest2 by
            simp [freeRun, hb, ha, hc]]
        refine noAdjFree_cons_of_head_not_free _ _ ?_ htl.2
        intro y hy
        simp only [List.head?_cons, Option.mem_def, Option.some.injEq] at hy
        subst hy
        simpa using hc
  | case9 a b rest hb ha =>
    rw [NoAdjFree, List.chain'_cons'] at h
    have htl := h.2
    rw [List.chain'_cons'] at htl
    cases rest with
    | nil =>
      rw [show freeRun 1 [a, b] = a :: [⟨b.size, true⟩] by
        simp [freeRun, hb, ha]]
      exact noAdjFree_cons_of_not_free a _ ha (List.chain'_singleton _)
    | cons c rest2 =>
      have hc2 := htl.2
      rw [List.chain'_cons'] at hc2
      by_cases hc : c.isFree = true
      · rw [show freeRun 1 (a :: b :: c :: rest2) =
          a :: ⟨b.size + c.size, true⟩ :: rest2 by
            simp [freeRun, hb, ha, hc]]
        refine noAdjFree_cons_of_not_free a _ ha ?_
        refine noAdjFree_cons_of_head_not_free _ _ ?_ hc2.2
        intro y hy
        have := hc2.1 y hy
        by_contra hcon
        simp only [Bool.not_eq_false] at hcon
        exact this ⟨hc, hcon⟩
      · rw [show freeRun 1 (a :: b :: c :: rest2) =
          a :: ⟨b.size, true⟩ :: c :: rest2 by
            simp [freeRun, hb, ha, hc]]
        refine noAdjFree_cons_of_not_free a _ ha ?_
        refine noAdjFree_cons_of_head_not_free _ _ ?_ htl.2
        intro y hy
        simp only [List.head?_cons, Option.mem_def, Option.some.injEq] at hy
        subst hy
        simpa using hc
  | case10 i a rest ih =>
    rw [NoAdjFree, List.chain'_cons'] at h
    rw [show freeRun (i + 1 + 1) (a :: rest) = a :: freeRun (i + 1) rest by
      simp [freeRun]]
    rw [NoAdjFree, List.chain'_cons']
    refine ⟨?_, ih h.2⟩
    intro y hy
    cases rest with
    | nil => simp [freeRun] at hy
    | cons r rs =>
      obtain ⟨y', hy', hfree⟩ := freeRun_head_isFree i r rs
      rw [hy'] at hy
      cases hy
      intro hcon
      refine h.1 r rfl ⟨hcon.1, ?_⟩
      rw [← hfree]
      exact hcon.2

lemma step_noAdjFree (op : HeapOp) (bs : List Block)
    (h : NoAdjFree bs) : NoAdjFree (step op bs) := by
  cases op with
  | alloc sz => exact malloc_noAdjFree sz bs h
  | dealloc i => exact freeRun_noAdjFree i bs h

lemma run_noAdjFree (ops : List HeapOp) (bs : List Block)
    (h : NoAdjFree bs) : NoAdjFree (run ops bs) := by
  induction ops generalizing bs with
  | nil => exact h
  | cons op rest ih => exact ih _ (step_noAdjFree op bs h)

/-- C3: after every finite sequence of `malloc`/`free` calls starting from the
freshly initialized heap (one free block), the physical-order block list
contains no pair of adjacent blocks that are both free. -/
theorem alloc_coalescing_invariant (heapSize : Nat) (ops : List HeapOp) :
    NoAdjFree (run ops (initHeap heapSize)) :=
  run_noAdjFree ops (initHeap heapSize) (List.chain'_singleton _)

/-- C4: the claim that every `malloc` payload is 16-byte aligned fails on the
code.  On the freshly initialized heap (whose start `heap_init` aligns to 16
bytes), `malloc(1)` succeeds and returns the payload at offset
`HEADER_SIZE = 24` from the aligned heap start, and 24 is not a multiple of
16: the 24-byte header breaks the intended 16-byte payload alignment. -/
theorem malloc_payload_not_16_aligned :
    mallocAddr 1 (initHeap 1024) = some 24 ∧ ¬ (16 ∣ 24) := by
  exact ⟨rfl, by decide⟩

end Alloc

namespace EvRing

/-
event.c: lock-free SPSC ring of 256 slots.  `queue_head`/`queue_tail` are
`uint32_t` but every update masks with `EVENT_QUEUE_MASK = 255`, and
`event_queue_init` zeroes both, so both stay below 256.  The memory barriers
order the element write against the index publish; in this single-threaded
embedding they have no observable effect.
-/

/-- event.h lines 27-33. -/
structure InputEvent where
  type : Nat
  subtype : Nat
  code : Nat
  x : Int
  y : Int

def EVENT_QUEUE_SIZE : Nat := 256

structure RingState where
  head : Nat
  tail : Nat
  store : Nat → InputEvent

/-- event.c lines 18-38, `event_push`: returns the C result (`0` ok, `-1`
full) and the new ring state. -/
def eventPush (e : InputEvent) (s : RingState) : Int × RingState :=
  if (s.head + 1) % EVENT_QUEUE_SIZE = s.tail then (-1, s)
  else (0, { s with
    head := (s.head + 1) % EVENT_QUEUE_SIZE,
    store := fun j => if j = s.head then e else s.store j })

/-- event.c lines 64-66, `event_count`: `(queue_head - queue_tail) & 255`
with `uint32_t` subtraction. -/
def ringCount (s : RingState) : Nat :=
  (s.head + 2 ^ 32 - s.tail) % 2 ^ 32 % 256

/-- The zero-initialized static ring after `event_queue_init`. -/
def zeroEvent : InputEvent := ⟨0, 0, 0, 0, 0⟩

def initRing : RingState := ⟨0, 0, fun _ => zeroEvent⟩

/-- Push a whole list of events in order; the `Bool` is true when every push
succeeded. -/
def pushAll : List InputEvent → RingState → Bool × RingState
  | [], s => (true, s)
  | e :: rest, s =>
    let r := eventPush e s
    let r2 := pushAll rest r.2
    (r.1 == 0 && r2.1, r2.2)

lemma eventPush_ok (e : InputEvent) (h : Nat) (store : Nat → InputEvent)
    (hh : h < 255) :
    eventPush e ⟨h, 0, store⟩ =
      (0, ⟨h + 1, 0, fun j => if j = h then e else store j⟩) := by
  have h1 : (h + 1) % EVENT_QUEUE_SIZE = h + 1 :=
    Nat.mod_eq_of_lt (by unfold EVENT_QUEUE_SIZE; omega)
  unfold eventPush
  dsimp only
  rw [h1, if_neg (by omega : ¬ (h + 1 = 0))]

lemma pushAll_ok (es : List InputEvent) (h : Nat) (store : Nat → InputEvent)
    (hlen : h + es.length ≤ 255) :
    ∃ st', pushAll es ⟨h, 0, store⟩ = (true, ⟨h + es.length, 0, st'⟩) := by
  induction es generalizing h store with
  | nil => exact ⟨store, by simp [pushAll]⟩
  | cons e rest ih =>
    obtain ⟨st', hst'⟩ := ih (h + 1) (fun j => if j = h then e else store j)
      (by simp only [List.length_cons] at hlen; omega)
    refine ⟨st', ?_⟩
    simp only [pushAll,
      eventPush_ok e h store (by simp only [List.length_cons] at hlen; omega),
      hst', List.length_cons]
    rw [show h + 1 + rest.length = h + (rest.length + 1) from by omega]
    rfl

/-- C5: `event_push` fails (`-1`) exactly when the ring holds 255 events
(equivalently `(head+1) mod 256 = tail`); a failed push leaves the head, the
tail and the stored elements unchanged; and from the empty ring 255
consecutive pushes all succeed while the 256th fails. -/
theorem event_push_capacity :
    (∀ (s : RingState) (e : InputEvent), s.head < 256 → s.tail < 256 →
      ((eventPush e s).1 = -1 ↔ ringCount s = 255) ∧
      ((eventPush e s).1 = -1 → (eventPush e s).2 = s)) ∧
    (∀ (es : List InputEvent) (e : InputEvent), es.length = 255 →
      (pushAll es initRing).1 = true ∧
      (eventPush e (pushAll es initRing).2).1 = -1) := by
  constructor
  · intro s e hh ht
    by_cases hc : (s.head + 1) % EVENT_QUEUE_SIZE = s.tail
    · refine ⟨?_, ?_⟩
      · simp only [eventPush, if_pos hc]
        unfold EVENT_QUEUE_SIZE at hc
        unfold ringCount
        constructor
        · intro _; omega
        · intro _; trivial
      · intro _
        simp only [eventPush, if_pos hc]
    · refine ⟨?_, ?_⟩
      · simp only [eventPush, if_neg hc]
        unfold EVENT_QUEUE_SIZE at hc
        unfold ringCount
        constructor
        · intro habs
          exact absurd habs (by decide)
        · intro hcount
          exact absurd (by omega) hc
      · intro hfail
        simp only [eventPush, if_neg hc] at hfail
        exact absurd hfail (by decide)
  · intro es e hlen
    obtain ⟨st', hst'⟩ := pushAll_ok es 0 (fun _ => zeroEvent) (by omega)
    rw [hlen] at hst'
    rw [show initRing = ⟨0, 0, fun _ => zeroEvent⟩ from rfl, hst']
    refine ⟨rfl, ?_⟩
    show (eventPush e ⟨0 + 255, 0, st'⟩).1 = -1
    unfold eventPush
    dsimp only
    rw [if_pos (by decide : (0 + 255 + 1) % EVENT_QUEUE_SIZE = 0)]

/-- Witness for C5 at concrete inputs: on the ring with `head = 255`,
`tail = 0` a failed push changes nothing, and 255 pushes from the empty ring
succeed while the 256th fails. -/
theorem event_push_capacity_witness :
    ((eventPush zeroEvent ⟨255, 0, fun _ => zeroEvent⟩).1 = -1 →
      (eventPush zeroEvent ⟨255, 0, fun _ => zeroEvent⟩).2 =
        ⟨255, 0, fun _ => zeroEvent⟩) ∧
    (pushAll (List.replicate 255 zeroEvent) initRing).1 = true ∧
    (eventPush zeroEvent (pushAll (List.replicate 255 zeroEvent) initRing).2).1 = -1 :=
  ⟨(event_push_capacity.1 ⟨255, 0, fun _ => zeroEvent⟩ zeroEvent
      (by decide) (by decide)).2,
    event_push_capacity.2 (List.replicate 255 zeroEvent) zeroEvent
      (List.length_replicate 255 zeroEvent)⟩

end EvRing

namespace Tcp

/-
tcp.c: pool of 4 connections.  Sequence-number arithmetic is `uint32_t`,
modelled as `Nat` mod `2^32`.  `send_tcp_packet` (lines 141-244) builds the
Ethernet/IP/TCP wire frame byte by byte; the claim-relevant content of an
outgoing frame is its TCP flags, sequence number, acknowledgment number and
payload, captured in `Seg`.  The function returns without sending (and
without advancing `seq_num`) when the driver is unavailable / the interface
is unconfigured (`netUp = false`) or when the ARP lookup of the gateway
misses (`arpHit = false`, in which case an ARP request goes out instead).
-/

def TCP_FIN : Nat := 0x01
def TCP_SYN : Nat := 0x02
def TCP_RST : Nat := 0x04
def TCP_PSH : Nat := 0x08
def TCP_ACK : Nat := 0x10

def TCP_CLOSED : Nat := 0
def TCP_SYN_SENT : Nat := 1
def TCP_ESTABLISHED : Nat := 2
def TCP_FIN_WAIT_1 : Nat := 3
def TCP_FIN_WAIT_2 : Nat := 4
def TCP_CLOSE_WAIT : Nat := 5
def TCP_LAST_ACK : Nat := 6
def TCP_TIME_WAIT : Nat := 7

def MAX_TCP_CONNS : Nat := 4
def TCP_RX_BUF_SIZE : Nat := 4096

def M32 : Nat := 2 ^ 32

/-- tcp.h `tcp_conn_t`.  `rx` is the first `rx_len` bytes of `rx_buffer`
(so `rx_len` is `rx.length`); `rx_ready` is the C int used as a boolean. -/
structure Conn where
  state : Nat
  remoteIp : List Nat
  localPort : Nat
  remotePort : Nat
  seqNum : Nat
  ackNum : Nat
  lastAckSent : Nat
  rx : List Nat
  rxReady : Bool
  timeoutTick : Nat
  retries : Nat

/-- An outgoing TCP segment as built by `send_tcp_packet`. -/
structure Seg where
  flags : Nat
  seq : Nat
  ack : Nat
  payload : List Nat

/-- tcp.c lines 66-70: linear-congruential initial sequence number. -/
def getInitialSeq (seed : Nat) : Nat := (seed * 1103515245 + 12345) % M32

/-- tcp.c lines 141-244 `send_tcp_packet`: emits one segment carrying the
connection's current `seq_num`/`ack_num` and advances `seq_num` by one per
SYN, one per FIN and by the payload length (lines 241-243). -/
def sendTcpPacket (netUp arpHit : Bool) (conn : Conn) (flags : Nat)
    (data : List Nat) : Conn × List Seg :=
  if ¬ netUp then (conn, [])
  else if ¬ arpHit then (conn, [])
  else
    let seg : Seg := ⟨flags, conn.seqNum, conn.ackNum, data⟩
    let s1 := if flags &&& TCP_SYN ≠ 0 then (conn.seqNum + 1) % M32 else conn.seqNum
    let s2 := if flags &&& TCP_FIN ≠ 0 then (s1 + 1) % M32 else s1
    let s3 := if data.length > 0 then (s2 + data.length) % M32 else s2
    ({ conn with seqNum := s3 }, [seg])

/-- tcp.c lines 72-107 `tcp_connect`, at the level of the fresh connection
record installed in the free slot (slot search and local-port cycling at
lines 78-92 pick the slot and `localPort`): zero the record, set the
endpoint fields, draw the initial sequence number, enter `SYN_SENT`, send
the SYN.  Requires `nc->configured` (folded into `netUp`). -/
def tcpConnect (netUp arpHit : Bool) (seed ticks : Nat) (ip : List Nat)
    (port localPort : Nat) : Conn × List Seg :=
  let conn : Conn :=
    { state := TCP_SYN_SENT
      remoteIp := ip
      localPort := localPort
      remotePort := port
      seqNum := getInitialSeq seed
      ackNum := 0
      lastAckSent := 0
      rx := []
      rxReady := false
      timeoutTick := ticks + 500
      retries := 0 }
  sendTcpPacket netUp arpHit conn TCP_SYN []

/-- tcp.c lines 342-452 `tcp_handle_packet`, acting on the matched
connection (lines 347-354 parse `seq`, `ack`, `flags` and the payload out
of the wire bytes big-endian; `find_conn` selects the connection). -/
def tcpHandlePacket (netUp arpHit : Bool) (conn : Conn) (seq ack : Nat)
    (flags : Nat) (data : List Nat) : Conn × List Seg :=
  if flags &&& TCP_RST ≠ 0 then
    ({ conn with state := TCP_CLOSED }, [])
  else if conn.state = TCP_SYN_SENT then
    if flags &&& (TCP_SYN ||| TCP_ACK) = TCP_SYN ||| TCP_ACK then
      let c1 := { conn with ackNum := (seq + 1) % M32 }
      if ack = conn.seqNum then
        let c2 := { c1 with state := TCP_ESTABLISHED }
        let r := sendTcpPacket netUp arpHit c2 TCP_ACK []
        ({ r.1 with lastAckSent := r.1.ackNum }, r.2)
      else (c1, [])
    else (conn, [])
  else if conn.state = TCP_ESTABLISHED then
    let c1 :=
      if data.length > 0 then
        let space := TCP_RX_BUF_SIZE - conn.rx.length
        let toCopy := min data.length space
        { conn with
          rx := conn.rx ++ data.take toCopy
          rxReady := if toCopy > 0 then true else conn.rxReady
          ackNum := (seq + data.length) % M32 }
      else conn
    let r1 :=
      if data.length > 0 then
        let r := sendTcpPacket netUp arpHit c1 TCP_ACK []
        ({ r.1 with lastAckSent := r.1.ackNum }, r.2)
      else (c1, [])
    if flags &&& TCP_FIN ≠ 0 then
      let c2 := { r1.1 with ackNum := (seq + 1) % M32 }
      let r2 := sendTcpPacket netUp arpHit c2 TCP_ACK []
      let c3 := { r2.1 with state := TCP_CLOSE_WAIT }
      let r3 := sendTcpPacket netUp arpHit c3 (TCP_FIN ||| TCP_ACK) []
      ({ r3.1 with state := TCP_LAST_ACK }, r1.2 ++ r2.2 ++ r3.2)
    else r1
  else if conn.state = TCP_FIN_WAIT_1 then
    let c1 := if flags &&& TCP_ACK ≠ 0 then { conn with state := TCP_FIN_WAIT_2 } else conn
    if flags &&& TCP_FIN ≠ 0 then
      let c2 := { c1 with ackNum := (seq + 1) % M32 }
      let r := sendTcpPacket netUp arpHit c2 TCP_ACK []
      ({ r.1 with state := TCP_TIME_WAIT }, r.2)
    else (c1, [])
  else if conn.state = TCP_FIN_WAIT_2 then
    if flags &&& TCP_FIN ≠ 0 then
      let c2 := { conn with ackNum := (seq + 1) % M32 }
      let r := sendTcpPacket netUp arpHit c2 TCP_ACK []
      ({ r.1 with state := TCP_TIME_WAIT }, r.2)
    else (conn, [])
  else if conn.state = TCP_LAST_ACK then
    if flags &&& TCP_ACK ≠ 0 then ({ conn with state := TCP_CLOSED }, [])
    else (conn, [])
  else (conn, [])

/-- tcp.c lines 269-288 `tcp_recv` on one connection (after the index bounds
check): result count, new connection, bytes copied out. -/
def tcpRecvConn (conn : Conn) (maxLen : Nat) : Int × Conn × List Nat :=
  if conn.rx.length = 0 then (0, conn, [])
  else
    let toCopy := min conn.rx.length maxLen
    let rx' := conn.rx.drop toCopy
    ((toCopy : Int),
      { conn with rx := rx', rxReady := decide (rx'.length > 0) },
      conn.rx.take toCopy)

/-- tcp.c `tcp_recv` with the pool and the bounds check of line 270. -/
def tcpRecv (pool : Fin 4 → Conn) (idx maxLen : Nat) :
    Int × (Fin 4 → Conn) × List Nat :=
  if h : idx < 4 then
    let r := tcpRecvConn (pool ⟨idx, h⟩) maxLen
    (r.1, fun j => if j = ⟨idx, h⟩ then r.2.1 else pool j, r.2.2)
  else (-1, pool, [])

/-- C2: after `tcp_connect` (state `SYN_SENT`, initial sequence number
`iss`, `seq_num` advanced to `iss+1` by sending the SYN), handling an
incoming segment with both SYN and ACK flags (and no RST) whose
acknowledgment number is `iss+1` sets `ack_num` to the segment's sequence
number plus one, moves the connection to `ESTABLISHED`, records the ACK as
sent, and emits exactly one ACK segment carrying `seq = iss+1`,
`ack = seq + 1`. -/
theorem tcp_handshake_established
    (seed ticks : Nat) (ip : List Nat) (port localPort : Nat)
    (seq flags : Nat) (data : List Nat)
    (hflags : flags &&& (TCP_SYN ||| TCP_ACK) = TCP_SYN ||| TCP_ACK)
    (hrst : flags &&& TCP_RST = 0) :
    (tcpConnect true true seed ticks ip port localPort).1.state = TCP_SYN_SENT ∧
    (tcpConnect true true seed ticks ip port localPort).1.seqNum =
      (getInitialSeq seed + 1) % M32 ∧
    (tcpHandlePacket true true
        (tcpConnect true true seed ticks ip port localPort).1
        seq ((getInitialSeq seed + 1) % M32) flags data).1.state =
      TCP_ESTABLISHED ∧
    (tcpHandlePacket true true
        (tcpConnect true true seed ticks ip port localPort).1
        seq ((getInitialSeq seed + 1) % M32) flags data).1.ackNum =
      (seq + 1) % M32 ∧
    (tcpHandlePacket true true
        (tcpConnect true true seed ticks ip port localPort).1
        seq ((getInitialSeq seed + 1) % M32) flags data).1.lastAckSent =
      (seq + 1) % M32 ∧
    (tcpHandlePacket true true
        (tcpConnect true true seed ticks ip port localPort).1
        seq ((getInitialSeq seed + 1) % M32) flags data).2 =
      [⟨TCP_ACK, (getInitialSeq seed + 1) % M32, (seq + 1) % M32, []⟩] := by
  have hc : tcpConnect true true seed ticks ip port localPort =
      ({ state := TCP_SYN_SENT, remoteIp := ip, localPort := localPort,
         remotePort := port, seqNum := (getInitialSeq seed + 1) % M32,
         ackNum := 0, lastAckSent := 0, rx := [], rxReady := false,
         timeoutTick := ticks + 500, retries := 0 },
       [⟨TCP_SYN, getInitialSeq seed, 0, []⟩]) := by
    simp [tcpConnect, sendTcpPacket, TCP_SYN, TCP_FIN]
  rw [hc]
  have hh : tcpHandlePacket true true
      ({ state := TCP_SYN_SENT, remoteIp := ip, localPort := localPort,
         remotePort := port, seqNum := (getInitialSeq seed + 1) % M32,
         ackNum := 0, lastAckSent := 0, rx := [], rxReady := false,
         timeoutTick := ticks + 500, retries := 0 } : Conn)
      seq ((getInitialSeq seed + 1) % M32) flags data =
      ({ state := TCP_ESTABLISHED, remoteIp := ip, localPort := localPort,
         remotePort := port, seqNum := (getInitialSeq seed + 1) % M32,
         ackNum := (seq + 1) % M32, lastAckSent := (seq + 1) % M32,
         rx := [], rxReady := false,
         timeoutTick := ticks + 500, retries := 0 },
       [⟨TCP_ACK, (getInitialSeq seed + 1) % M32, (seq + 1) % M32, []⟩]) := by
    have hflags' : flags &&& 18 = 18 := by
      simpa [TCP_SYN, TCP_ACK] using hflags
    simp [tcpHandlePacket, sendTcpPacket, hrst, TCP_ACK, TCP_SYN,
      TCP_FIN, hflags']
    intro hx
    exact absurd (by decide : (16 &&& 2 : Nat) = 0) hx
  rw [hh]
  exact ⟨rfl, rfl, rfl, rfl, rfl, rfl⟩

/-- Witness for C2 at concrete inputs. -/
theorem tcp_handshake_established_witness :
    (tcpHandlePacket true true
        (tcpConnect true true 1 0 [10, 0, 2, 2] 80 49152).1
        1000 ((getInitialSeq 1 + 1) % M32) 0x12 []).1.state =
      TCP_ESTABLISHED ∧
    (tcpHandlePacket true true
        (tcpConnect true true 1 0 [10, 0, 2, 2] 80 49152).1
        1000 ((getInitialSeq 1 + 1) % M32) 0x12 []).1.ackNum = 1001 := by
  have h := tcp_handshake_established 1 0 [10, 0, 2, 2] 80 49152 1000 0x12 []
    (by decide) (by decide)
  exact ⟨h.2.2.1, by rw [h.2.2.2.1]; norm_num [M32]⟩

/-- C9: `tcp_recv` depends only on the buffered bytes, never on the
connection state: for every valid index it returns `min(rx_len, max_len)`,
copies out exactly that prefix, keeps the remainder (shifted forward), is
unchanged by replacing the `state` field (so data buffered before a RST is
still readable once the state is `CLOSED` — the RST branch of
`tcp_handle_packet` closes the connection without touching `rx`), and
returns `0`, not `-1`, on an empty buffer. -/
theorem tcp_recv_state_independent
    (pool : Fin 4 → Conn) (idx maxLen : Nat) (h : idx < 4) :
    ((tcpRecv pool idx maxLen).1 =
        ((min (pool ⟨idx, h⟩).rx.length maxLen : Nat) : Int) ∧
      (tcpRecv pool idx maxLen).2.2 =
        (pool ⟨idx, h⟩).rx.take (min (pool ⟨idx, h⟩).rx.length maxLen) ∧
      ((tcpRecv pool idx maxLen).2.1 ⟨idx, h⟩).rx =
        (pool ⟨idx, h⟩).rx.drop (min (pool ⟨idx, h⟩).rx.length maxLen)) ∧
    (∀ st : Nat, tcpRecvConn { pool ⟨idx, h⟩ with state := st } maxLen =
      ((tcpRecvConn (pool ⟨idx, h⟩) maxLen).1,
       { (tcpRecvConn (pool ⟨idx, h⟩) maxLen).2.1 with state := st },
       (tcpRecvConn (pool ⟨idx, h⟩) maxLen).2.2)) ∧
    ((pool ⟨idx, h⟩).rx = [] → (tcpRecv pool idx maxLen).1 = 0) ∧
    (∀ (netUp arpHit : Bool) (seq ack flags : Nat) (data : List Nat),
      flags &&& TCP_RST ≠ 0 →
      (tcpHandlePacket netUp arpHit (pool ⟨idx, h⟩) seq ack flags data).1.rx =
          (pool ⟨idx, h⟩).rx ∧
      (tcpHandlePacket netUp arpHit (pool ⟨idx, h⟩) seq ack flags data).1.state =
          TCP_CLOSED) := by
  have hrecv : tcpRecv pool idx maxLen =
      ((tcpRecvConn (pool ⟨idx, h⟩) maxLen).1,
        fun j => if j = ⟨idx, h⟩ then (tcpRecvConn (pool ⟨idx, h⟩) maxLen).2.1
          else pool j,
        (tcpRecvConn (pool ⟨idx, h⟩) maxLen).2.2) := by
    simp [tcpRecv, h]
  refine ⟨?_, ?_, ?_, ?_⟩
  · rw [hrecv]
    by_cases hz : (pool ⟨idx, h⟩).rx.length = 0
    · have hnil : (pool ⟨idx, h⟩).rx = [] := List.length_eq_zero.mp hz
      refine ⟨?_, ?_, ?_⟩ <;> simp [tcpRecvConn, hnil]
    · refine ⟨?_, ?_, ?_⟩ <;> simp [tcpRecvConn, hz]
  · intro st
    by_cases hz : (pool ⟨idx, h⟩).rx.length = 0
    · simp [tcpRecvConn, hz]
    · simp [tcpRecvConn, hz]
  · intro hnil
    rw [hrecv]
    simp [tcpRecvConn, hnil]
  · intro netUp arpHit seq ack flags data hrst
    constructor <;> simp [tcpHandlePacket, hrst]

/-- Witness for C9 at a concrete input: a connection that is already
`CLOSED` with three buffered bytes still delivers them. -/
theorem tcp_recv_state_independent_witness :
    (tcpRecv (fun _ => ⟨TCP_CLOSED, [10, 0, 2, 2], 49152, 80, 5, 7, 7,
        [9, 8, 7], true, 0, 0⟩) 0 2).1 = 2 ∧
    (tcpRecv (fun _ => ⟨TCP_CLOSED, [10, 0, 2, 2], 49152, 80, 5, 7, 7,
        [9, 8, 7], true, 0, 0⟩) 0 2).2.2 = [9, 8] := by
  have h := tcp_recv_state_independent
    (fun _ => ⟨TCP_CLOSED, [10, 0, 2, 2], 49152, 80, 5, 7, 7,
      [9, 8, 7], true, 0, 0⟩) 0 2 (by decide)
  refine ⟨?_, ?_⟩
  · rw [h.1.1]; rfl
  · rw [h.1.2.1]; rfl

end Tcp

namespace Http

/-
http.c `http_parse_url` (lines 45-90).  C strings are embedded as lists of
their non-NUL byte values: the end of the list is the NUL terminator, so a
well-formed embedded string contains no 0 byte.  `parsed->port` is
`uint16_t`, so each `port = port * 10 + digit` assignment wraps mod 65536.
-/

def HTTP_MAX_HOST : Nat := 64
def HTTP_MAX_PATH : Nat := 128

structure HttpUrl where
  host : List Nat
  path : List Nat
  port : Nat
  isHttps : Bool
  deriving Repr, DecidableEq

/-- "http://" -/
def httpLit : List Nat := [104, 116, 116, 112, 58, 47, 47]

/-- "https://" -/
def httpsLit : List Nat := [104, 116, 116, 112, 115, 58, 47, 47]

/-- http.c lines 22-26 `str_ncmp`. -/
def strNcmp : List Nat → List Nat → Nat → Int
  | _, _, 0 => 0
  | [], [], _ => 0
  | [], b :: _, _ => 0 - (b : Int)
  | a :: _, [], _ => (a : Int)
  | a :: as, b :: bs, Nat.succ n =>
    if a = b then strNcmp as bs n else (a : Int) - (b : Int)

/-- http.c lines 28-34 `str_cpy` into a buffer of `maxLen` bytes: copies at
most `maxLen - 1` characters. -/
def strCpyMax (src : List Nat) (maxLen : Nat) : List Nat :=
  src.take (maxLen - 1)

/-- http.c lines 63-67: the host-copy loop
`while (*p && *p != ':' && *p != '/' && host_len < HTTP_MAX_HOST - 1)`;
returns the copied host and the rest of the string. -/
def takeHost : List Nat → Nat → List Nat × List Nat
  | [], _ => ([], [])
  | c :: rest, k =>
    if c ≠ 58 ∧ c ≠ 47 ∧ k < HTTP_MAX_HOST - 1 then
      let r := takeHost rest (k + 1)
      (c :: r.1, r.2)
    else ([], c :: rest)

/-- http.c lines 76-80: the port-digit loop, accumulating into the
`uint16_t` field. -/
def takeDigits : List Nat → Nat → Nat × List Nat
  | [], acc => (acc, [])
  | c :: rest, acc =>
    if 48 ≤ c ∧ c ≤ 57 then takeDigits rest ((acc * 10 + (c - 48)) % 65536)
    else (acc, c :: rest)

/-- http.c lines 45-90 `http_parse_url`; `none` is the `-1` return. -/
def httpParseUrl (url : List Nat) : Option HttpUrl :=
  let step1 : Bool × Nat × List Nat :=
    if strNcmp url httpsLit 8 = 0 then (true, 443, url.drop 8)
    else if strNcmp url httpLit 7 = 0 then (false, 80, url.drop 7)
    else (false, 80, url)
  let hostRem := takeHost step1.2.2 0
  if hostRem.1.length = 0 then none
  else
    let portRem : Nat × List Nat :=
      match hostRem.2 with
      | c :: rest => if c = 58 then takeDigits rest 0 else (step1.2.1, c :: rest)
      | [] => (step1.2.1, [])
    let path : List Nat :=
      match portRem.2 with
      | c :: rest => if c = 47 then strCpyMax (c :: rest) HTTP_MAX_PATH else [47]
      | [] => [47]
    some ⟨hostRem.1, path, portRem.1, step1.1⟩

/-- The claim's reading of the digit string: the plain decimal value. -/
def digitsVal (ds : List Nat) : Nat :=
  ds.foldl (fun a c => a * 10 + (c - 48)) 0

def digitsValFrom (acc : Nat) (ds : List Nat) : Nat :=
  ds.foldl (fun a c => a * 10 + (c - 48)) acc

/-- The `[:port]` part of the claim's `host[:port][/path]` grammar. -/
def portSuffix : Option (List Nat) → List Nat
  | some ds => 58 :: ds
  | none => []

/-- The `[/path]` part of the claim's `host[:port][/path]` grammar. -/
def pathSuffix : Option (List Nat) → List Nat
  | some r => 47 :: r
  | none => []

lemma strNcmp_eq_zero (url lit : List Nat) (n : Nat)
    (hurl : ∀ c ∈ url, c ≠ 0) (hlit : ∀ c ∈ lit, c ≠ 0)
    (h : strNcmp url lit n = 0) : url.take n = lit.take n := by
  induction n generalizing url lit with
  | zero => rfl
  | succ n ih =>
    cases url with
    | nil =>
      cases lit with
      | nil => rfl
      | cons b bs =>
        exfalso
        have hb : b ≠ 0 := hlit b (List.mem_cons_self b bs)
        simp only [strNcmp] at h
        omega
    | cons a as =>
      cases lit with
      | nil =>
        exfalso
        have ha : a ≠ 0 := hurl a (List.mem_cons_self a as)
        simp only [strNcmp] at h
        omega
      | cons b bs =>
        by_cases hab : a = b
        · subst hab
          simp only [strNcmp, if_pos rfl] at h
          have := ih as bs (fun c hc => hurl c (List.mem_cons_of_mem a hc))
            (fun c hc => hlit c (List.mem_cons_of_mem a hc)) h
          simp [List.take, this]
        · exfalso
          simp only [strNcmp, if_neg hab] at h
          omega

lemma takeHost_append (host rest : List Nat) (k : Nat)
    (hc : ∀ c ∈ host, c ≠ 58 ∧ c ≠ 47)
    (hlen : k + host.length ≤ HTTP_MAX_HOST - 1)
    (hrest : rest = [] ∨ (∃ r, rest = 58 :: r) ∨ (∃ r, rest = 47 :: r)) :
    takeHost (host ++ rest) k = (host, rest) := by
  induction host generalizing k with
  | nil =>
    rcases hrest with h0 | ⟨r, h1⟩ | ⟨r, h2⟩
    · subst h0; rfl
    · subst h1; simp [takeHost]
    · subst h2; simp [takeHost]
  | cons c host' ih =>
    have hcc := hc c (List.mem_cons_self c host')
    have hk : k < HTTP_MAX_HOST - 1 := by
      simp only [List.length_cons] at hlen
      omega
    simp only [List.cons_append, takeHost, List.append_eq]
    rw [if_pos ⟨hcc.1, hcc.2, hk⟩,
      ih (k + 1) (fun d hd => hc d (List.mem_cons_of_mem c hd))
        (by simp only [List.length_cons] at hlen; omega)]

lemma digitsValFrom_ge (ds : List Nat) (acc : Nat) :
    acc ≤ digitsValFrom acc ds := by
  induction ds generalizing acc with
  | nil => exact le_refl acc
  | cons c rest ih =>
    calc acc ≤ acc * 10 + (c - 48) := by omega
    _ ≤ digitsValFrom (acc * 10 + (c - 48)) rest := ih _

lemma takeDigits_append (ds rest : List Nat) (acc : Nat)
    (hd : ∀ c ∈ ds, 48 ≤ c ∧ c ≤ 57)
    (hrest : rest = [] ∨ ∃ c r, rest = c :: r ∧ ¬(48 ≤ c ∧ c ≤ 57))
    (hb : digitsValFrom acc ds < 65536) :
    takeDigits (ds ++ rest) acc = (digitsValFrom acc ds, rest) := by
  induction ds generalizing acc with
  | nil =>
    rcases hrest with h0 | ⟨c, r, h1, h2⟩
    · subst h0; rfl
    · subst h1
      simp only [List.nil_append, takeDigits, if_neg h2]
      rfl
  | cons d ds' ih =>
    have hdd := hd d (List.mem_cons_self d ds')
    have hstep : digitsValFrom acc (d :: ds') =
        digitsValFrom (acc * 10 + (d - 48)) ds' := rfl
    have hlt : acc * 10 + (d - 48) < 65536 :=
      lt_of_le_of_lt (digitsValFrom_ge ds' (acc * 10 + (d - 48)))
        (hstep ▸ hb)
    simp only [List.cons_append, takeDigits, if_pos hdd,
      Nat.mod_eq_of_lt hlt]
    exact ih (acc * 10 + (d - 48)) (fun c hc => hd c (List.mem_cons_of_mem d hc))
      (hstep ▸ hb)

lemma strCpyMax_id (r : List Nat) (hr : r.length ≤ 126) :
    strCpyMax (47 :: r) HTTP_MAX_PATH = 47 :: r := by
  unfold strCpyMax HTTP_MAX_PATH
  exact List.take_of_length_le (by simp; omega)

/-- C10 (amended): `http_parse_url` accepts scheme-less URLs.  For every
input that begins with neither `http://` nor `https://` and has the shape
`host[:port][/path]` — non-empty host shorter than the 64-byte host buffer,
decimal port below 65536, path shorter than the 128-byte path buffer — it
returns success with that host, the given port (default 80), the given path
(default `/`), and `is_https = false`. -/
theorem http_parse_url_schemeless
    (host : List Nat) (optPort optPath : Option (List Nat))
    (hostNe : host ≠ [])
    (hostLen : host.length ≤ 63)
    (hostChars : ∀ c ∈ host, c ≠ 58 ∧ c ≠ 47 ∧ c ≠ 0)
    (portOk : ∀ ds ∈ optPort, (∀ c ∈ ds, 48 ≤ c ∧ c ≤ 57) ∧ digitsVal ds < 65536)
    (pathOk : ∀ r ∈ optPath, (∀ c ∈ r, c ≠ 0) ∧ r.length ≤ 126)
    (hnoHttp : (host ++ portSuffix optPort ++ pathSuffix optPath).take 7 ≠ httpLit)
    (hnoHttps : (host ++ portSuffix optPort ++ pathSuffix optPath).take 8 ≠ httpsLit) :
    httpParseUrl (host ++ portSuffix optPort ++ pathSuffix optPath) =
      some { host := host,
             path := match optPath with | some r => 47 :: r | none => [47],
             port := match optPort with | some ds => digitsVal ds | none => 80,
             isHttps := false } := by
  have hurlnz : ∀ c ∈ host ++ portSuffix optPort ++ pathSuffix optPath, c ≠ 0 := by
    intro c hcmem
    rcases List.mem_append.mp hcmem with h1 | h2
    · rcases List.mem_append.mp h1 with ha | hb
      · exact (hostChars c ha).2.2
      · cases optPort with
        | none => simp [portSuffix] at hb
        | some ds =>
          simp only [portSuffix] at hb
          rcases List.mem_cons.mp hb with rfl | hds
          · omega
          · have := ((portOk ds rfl).1 c hds).1; omega
    · cases optPath with
      | none => simp [pathSuffix] at h2
      | some r =>
        simp only [pathSuffix] at h2
        rcases List.mem_cons.mp h2 with rfl | hr
        · omega
        · exact (pathOk r rfl).1 c hr
  have hf1 : ¬ strNcmp (host ++ portSuffix optPort ++ pathSuffix optPath)
      httpsLit 8 = 0 := by
    intro h
    exact hnoHttps ((strNcmp_eq_zero _ httpsLit 8 hurlnz (by decide) h).trans
      (by decide))
  have hf2 : ¬ strNcmp (host ++ portSuffix optPort ++ pathSuffix optPath)
      httpLit 7 = 0 := by
    intro h
    exact hnoHttp ((strNcmp_eq_zero _ httpLit 7 hurlnz (by decide) h).trans
      (by decide))
  have hc58 : ∀ c ∈ host, c ≠ 58 ∧ c ≠ 47 :=
    fun c hc => ⟨(hostChars c hc).1, (hostChars c hc).2.1⟩
  have hostLen' : (0 : Nat) + host.length ≤ HTTP_MAX_HOST - 1 := by
    unfold HTTP_MAX_HOST; omega
  have hostNe' : ¬ host.length = 0 := by simpa using hostNe
  cases optPort with
  | some ds =>
    obtain ⟨hds, hdsv⟩ := portOk ds rfl
    cases optPath with
    | some r =>
      obtain ⟨hrz, hrlen⟩ := pathOk r rfl
      have hTH : takeHost (host ++ 58 :: (ds ++ 47 :: r)) 0 =
          (host, 58 :: (ds ++ 47 :: r)) :=
        takeHost_append host _ 0 hc58 hostLen' (Or.inr (Or.inl ⟨_, rfl⟩))
      have hTD : takeDigits (ds ++ 47 :: r) 0 = (digitsVal ds, 47 :: r) :=
        takeDigits_append ds _ 0 hds (Or.inr ⟨47, r, rfl, by omega⟩) hdsv
      simp only [portSuffix, pathSuffix, List.append_assoc,
        List.cons_append] at hf1 hf2
      simp only [httpParseUrl, portSuffix, pathSuffix, List.append_assoc,
        List.cons_append]
      rw [if_neg hf1, if_neg hf2]
      dsimp only
      rw [hTH]
      dsimp only
      rw [if_neg hostNe', if_pos rfl, hTD]
      dsimp only
      rw [if_pos rfl, strCpyMax_id r hrlen]
    | none =>
      have hTH : takeHost (host ++ 58 :: (ds ++ [])) 0 =
          (host, 58 :: (ds ++ [])) :=
        takeHost_append host _ 0 hc58 hostLen' (Or.inr (Or.inl ⟨_, rfl⟩))
      have hTD : takeDigits (ds ++ []) 0 = (digitsVal ds, []) :=
        takeDigits_append ds _ 0 hds (Or.inl rfl) hdsv
      simp only [portSuffix, pathSuffix, List.append_assoc,
        List.cons_append, List.append_nil] at hf1 hf2
      simp only [httpParseUrl, portSuffix, pathSuffix, List.append_assoc,
        List.cons_append, List.append_nil]
      rw [if_neg hf1, if_neg hf2]
      dsimp only
      rw [show host ++ 58 :: ds = host ++ 58 :: (ds ++ []) from by simp, hTH]
      dsimp only
      rw [if_neg hostNe', if_pos rfl, hTD]
  | none =>
    cases optPath with
    | some r =>
      obtain ⟨hrz, hrlen⟩ := pathOk r rfl
      have hTH : takeHost (host ++ 47 :: r) 0 = (host, 47 :: r) :=
        takeHost_append host _ 0 hc58 hostLen' (Or.inr (Or.inr ⟨_, rfl⟩))
      simp only [portSuffix, pathSuffix, List.append_assoc,
        List.cons_append, List.append_nil, List.nil_append] at hf1 hf2
      simp only [httpParseUrl, portSuffix, pathSuffix, List.append_assoc,
        List.cons_append, List.append_nil, List.nil_append]
      rw [if_neg hf1, if_neg hf2]
      dsimp only
      rw [hTH]
      dsimp only
      rw [if_neg hostNe', if_neg (by omega : ¬ (47 : Nat) = 58)]
      dsimp only
      rw [if_pos rfl, strCpyMax_id r hrlen]
    | none =>
      have hTH : takeHost host 0 = (host, []) := by
        have := takeHost_append host [] 0 hc58 hostLen' (Or.inl rfl)
        simpa using this
      simp only [portSuffix, pathSuffix, List.append_assoc,
        List.append_nil] at hf1 hf2
      simp only [httpParseUrl, portSuffix, pathSuffix, List.append_assoc,
        List.append_nil]
      rw [if_neg hf1, if_neg hf2]
      dsimp only
      rw [hTH]
      dsimp only
      rw [if_neg hostNe']

/-- Witness for the amended C10 at the concrete URL `h:8080/a`. -/
theorem http_parse_url_schemeless_witness :
    httpParseUrl ([104] ++ portSuffix (some [56, 48, 56, 48]) ++
        pathSuffix (some [97])) =
      some ⟨[104], [47, 97], 8080, false⟩ := by
  have h := http_parse_url_schemeless [104] (some [56, 48, 56, 48])
    (some [97]) (by decide) (by decide) (by decide)
    (by intro ds hds; simp only [Option.mem_def, Option.some.injEq] at hds
        subst hds; exact ⟨by decide, by decide⟩)
    (by intro r hr; simp only [Option.mem_def, Option.some.injEq] at hr
        subst hr; exact ⟨by decide, by decide⟩)
    (by decide) (by decide)
  exact h

/-- Concrete scheme-less URL with a 64-character leading segment:
64 `a`s followed by `:81`. -/
def longHostUrl : List Nat := List.replicate 64 97 ++ [58, 56, 49]

/-- C10 counterexample: on a scheme-less URL whose leading segment (64 `a`s,
up to the `:`) exceeds the 63-character host capacity, `http_parse_url`
still returns success but truncates the host to 63 characters and, because
the copy loop stops mid-host, never reaches the `:81`, leaving port 80 — not
the port 81 the claim's `host[:port]` reading requires. -/
theorem http_parse_url_long_host_counterexample :
    longHostUrl.take 7 ≠ httpLit ∧
    longHostUrl.take 8 ≠ httpsLit ∧
    longHostUrl.head? = some 97 ∧
    httpParseUrl longHostUrl =
      some ⟨List.replicate 63 97, [47], 80, false⟩ ∧
    (List.replicate 63 97 : List Nat) ≠ List.replicate 64 97 ∧
    (80 : Nat) ≠ 81 := by decide

end Http

namespace Bits

/-- Bit-level facts shared by the wire-format embeddings: a bitwise OR whose
left operand has only high bits and whose right operand fits below them is
an addition, and masks/shifts by constants are `%`/`/`. -/
lemma or_mul_pow_add (x y k : Nat) (hy : y < 2 ^ k) :
    (2 ^ k * x) ||| y = 2 ^ k * x + y := by
  apply Nat.eq_of_testBit_eq
  intro j
  rw [Nat.testBit_lor, Nat.testBit_mul_pow_two,
    Nat.testBit_mul_pow_two_add x hy j]
  by_cases hj : j < k
  · simp [hj, Nat.not_le.mpr hj]
  · have : y < 2 ^ j := lt_of_lt_of_le hy
      (Nat.pow_le_pow_right (by norm_num) (Nat.le_of_not_lt hj))
    simp [hj, Nat.le_of_not_lt hj, Nat.testBit_lt_two_pow this]

lemma and_mod16 (x : Nat) : x &&& 0x0F = x % 16 := by
  rw [show (0x0F : Nat) = 2 ^ 4 - 1 from rfl, Nat.and_pow_two_sub_one_eq_mod]

lemma and_mod128 (x : Nat) : x &&& 0x7F = x % 128 := by
  rw [show (0x7F : Nat) = 2 ^ 7 - 1 from rfl, Nat.and_pow_two_sub_one_eq_mod]

lemma and_mod256 (x : Nat) : x &&& 0xFF = x % 256 := by
  rw [show (0xFF : Nat) = 2 ^ 8 - 1 from rfl, Nat.and_pow_two_sub_one_eq_mod]

lemma and_mod2 (x : Nat) : x &&& 1 = x % 2 := by
  rw [show (1 : Nat) = 2 ^ 1 - 1 from rfl, Nat.and_pow_two_sub_one_eq_mod]

lemma shr7_div (x : Nat) : x >>> 7 = x / 128 :=
  Nat.shiftRight_eq_div_pow x 7

lemma shr8_div (x : Nat) : x >>> 8 = x / 256 :=
  Nat.shiftRight_eq_div_pow x 8

/-- Big-endian 16-bit read of two bytes `a`, `b` with `a, b < 256`:
`(a <<< 8) ||| b = 256 * a + b`. -/
lemma be16 (a b : Nat) (hb : b < 256) : (a <<< 8) ||| b = 256 * a + b := by
  rw [Nat.shiftLeft_eq, Nat.mul_comm,
    show ((2 : Nat) ^ 8) = 256 from rfl] at *
  rw [show (256 : Nat) * a = 2 ^ 8 * a from rfl]
  rw [or_mul_pow_add a b 8 hb]

end Bits


namespace Ws

/-
websocket.c: frame codec (lines 231-337).  Frames are byte lists.  The
masking key is drawn from the linear-congruential `ws_rand`; XOR and the
header bit fields are Lean `Nat` bitwise operations.  `send_frame` writes
`FIN|opcode`, then `MASK|length` (with a 2-byte big-endian extension when
`126 ≤ len < 65536`, and failure `-1` at 65536), then the 4 mask bytes,
then the masked payload; `parse_frame` reads them back, tolerating masked
or unmasked payloads, and copies at most `WS_MAX_MESSAGE - 1` payload bytes
into `rx_buffer` (the `rx_len < WS_MAX_MESSAGE - 1` bound of line 311).
-/

def WS_MAX_MESSAGE : Nat := 2048

/-- websocket.c lines 38-41 `ws_rand`. -/
def wsRand (seed : Nat) : Nat := (seed * 1103515245 + 12345) % 2 ^ 32

/-- websocket.c lines 253-257: the four mask bytes, most significant
first. -/
def maskBytes (m : Nat) : List Nat :=
  [(m >>> 24) &&& 0xFF, (m >>> 16) &&& 0xFF, (m >>> 8) &&& 0xFF, m &&& 0xFF]

/-- websocket.c lines 260-264 / 311-315: XOR a byte list against the 4-byte
mask, starting at payload index `i`. -/
def xorMask (mb : List Nat) : Nat → List Nat → List Nat
  | _, [] => []
  | i, b :: rest => (b ^^^ mb.getD (i % 4) 0) :: xorMask mb (i + 1) rest

/-- websocket.c lines 231-265 `send_frame`: the emitted frame bytes, or
`none` for the unsupported 8-byte length (`-1` return). -/
def sendFrameBytes (seed opcode : Nat) (data : List Nat) : Option (List Nat) :=
  let len := data.length
  let mb := maskBytes (wsRand seed)
  if len < 126 then
    some ((0x80 ||| (opcode &&& 0x0F)) :: (0x80 ||| len) ::
      (mb ++ xorMask mb 0 data))
  else if len < 65536 then
    some ((0x80 ||| (opcode &&& 0x0F)) :: (0x80 ||| 126) ::
      ((len >>> 8) &&& 0xFF) :: (len &&& 0xFF) ::
      (mb ++ xorMask mb 0 data))
  else none

/-- websocket.c lines 268-337 `parse_frame`: `none` is the `return 0`
("need more data") path; otherwise the result is `(rx_opcode, rx_buffer
contents, bytes consumed)`.  The control-frame dispatch of lines 318-334
(pong reply, close handshake, `rx_ready`) happens after these fields are
set and does not change them. -/
def parseFrame (d : List Nat) : Option (Nat × List Nat × Nat) :=
  let len := d.length
  if len < 2 then none
  else
    let byte1 := d.getD 0 0
    let byte2 := d.getD 1 0
    let opcode := byte1 &&& 0x0F
    let maskBit := (byte2 >>> 7) &&& 1
    let pl7 := byte2 &&& 0x7F
    let ext : Option (Nat × Nat) :=
      if pl7 = 126 then
        if len < 4 then none
        else some (((d.getD 2 0) <<< 8) ||| d.getD 3 0, 4)
      else if pl7 = 127 then
        if len < 10 then none
        else some ((((d.getD 6 0) <<< 24) ||| ((d.getD 7 0) <<< 16) |||
          ((d.getD 8 0) <<< 8) ||| d.getD 9 0), 10)
      else some (pl7, 2)
    match ext with
    | none => none
    | some (plen, pos0) =>
      let mk : Option (List Nat × Nat) :=
        if maskBit = 1 then
          if pos0 + 4 > len then none
          else some ([d.getD pos0 0, d.getD (pos0 + 1) 0,
            d.getD (pos0 + 2) 0, d.getD (pos0 + 3) 0], pos0 + 4)
        else some ([0, 0, 0, 0], pos0)
      match mk with
      | none => none
      | some (mkey, pos) =>
        if pos + plen > len then none
        else
          let slice := (d.drop pos).take plen
          let unmasked := if maskBit = 1 then xorMask mkey 0 slice else slice
          some (opcode, unmasked.take (WS_MAX_MESSAGE - 1), pos + plen)

lemma xorMask_length (mb l : List Nat) (i : Nat) :
    (xorMask mb i l).length = l.length := by
  induction l generalizing i with
  | nil => rfl
  | cons b rest ih => simp [xorMask, ih]

lemma xorMask_xorMask (mb l : List Nat) (i : Nat) :
    xorMask mb i (xorMask mb i l) = l := by
  induction l generalizing i with
  | nil => rfl
  | cons b rest ih =>
    simp only [xorMask, Nat.xor_cancel_right, ih]

lemma or128 (y : Nat) (h : y < 128) : (0x80 : Nat) ||| y = 128 + y := by
  rw [show (0x80 : Nat) = 2 ^ 7 * 1 from rfl, Bits.or_mul_pow_add 1 y 7 h]

lemma b0_and (opcode : Nat) (h : opcode < 16) :
    (0x80 ||| (opcode &&& 0x0F)) &&& 0x0F = opcode := by
  simp only [Bits.and_mod16]
  rw [or128 (opcode % 16) (by omega)]
  omega

lemma ext_len_roundtrip (n : Nat) (h : n < 65536) :
    (((n >>> 8) &&& 0xFF) <<< 8) ||| (n &&& 0xFF) = n := by
  rw [Bits.shr8_div, Bits.and_mod256, Bits.and_mod256, Nat.shiftLeft_eq,
    show ((n / 256 % 256) * 2 ^ 8) = 2 ^ 8 * (n / 256 % 256) from Nat.mul_comm _ _,
    Bits.or_mul_pow_add _ _ 8 (by omega)]
  omega

lemma parseFrame_small (seed opcode : Nat) (data : List Nat)
    (hop : opcode < 16) (hsmall : data.length < 126) :
    parseFrame ((0x80 ||| (opcode &&& 0x0F)) :: (0x80 ||| data.length) ::
        ((wsRand seed >>> 24) &&& 0xFF) :: ((wsRand seed >>> 16) &&& 0xFF) ::
        ((wsRand seed >>> 8) &&& 0xFF) :: (wsRand seed &&& 0xFF) ::
        xorMask (maskBytes (wsRand seed)) 0 data) =
      some (opcode, data, data.length + 6) := by
  have h0 : ((0x80 ||| (opcode &&& 0x0F)) :: (0x80 ||| data.length) ::
        ((wsRand seed >>> 24) &&& 0xFF) :: ((wsRand seed >>> 16) &&& 0xFF) ::
        ((wsRand seed >>> 8) &&& 0xFF) :: (wsRand seed &&& 0xFF) ::
        xorMask (maskBytes (wsRand seed)) 0 data).getD 0 0 = 0x80 ||| (opcode &&& 0x0F) := rfl
  have h1 : ((0x80 ||| (opcode &&& 0x0F)) :: (0x80 ||| data.length) ::
        ((wsRand seed >>> 24) &&& 0xFF) :: ((wsRand seed >>> 16) &&& 0xFF) ::
        ((wsRand seed >>> 8) &&& 0xFF) :: (wsRand seed &&& 0xFF) ::
        xorMask (maskBytes (wsRand seed)) 0 data).getD 1 0 = 0x80 ||| data.length := rfl
  have hlen : ((0x80 ||| (opcode &&& 0x0F)) :: (0x80 ||| data.length) ::
        ((wsRand seed >>> 24) &&& 0xFF) :: ((wsRand seed >>> 16) &&& 0xFF) ::
        ((wsRand seed >>> 8) &&& 0xFF) :: (wsRand seed &&& 0xFF) ::
        xorMask (maskBytes (wsRand seed)) 0 data).length = data.length + 6 := by
    simp [xorMask_length]
  simp only [parseFrame, hlen, h0, h1]
  simp only [b0_and opcode hop, or128 data.length (by omega), Bits.shr7_div,
    Bits.and_mod2, Bits.and_mod128]
  rw [if_neg (by omega : ¬ (data.length + 6 < 2)),
    if_neg (by omega : ¬ ((128 + data.length) % 128 = 126)),
    if_neg (by omega : ¬ ((128 + data.length) % 128 = 127))]
  dsimp only
  rw [if_pos (by omega : (128 + data.length) / 128 % 2 = 1)]
  rw [if_neg (by omega : ¬ (2 + 4 > data.length + 6))]
  dsimp only
  rw [if_neg (by omega : ¬ (2 + 4 + (128 + data.length) % 128 > data.length + 6))]
  rw [if_pos (by omega : (128 + data.length) / 128 % 2 = 1)]
  have hfold2 : [((0x80 ||| (opcode &&& 0x0F)) :: (128 + data.length) ::
        ((wsRand seed >>> 24) &&& 0xFF) :: ((wsRand seed >>> 16) &&& 0xFF) ::
        ((wsRand seed >>> 8) &&& 0xFF) :: (wsRand seed &&& 0xFF) ::
        xorMask (maskBytes (wsRand seed)) 0 data).getD 2 0, ((0x80 ||| (opcode &&& 0x0F)) :: (128 + data.length) ::
        ((wsRand seed >>> 24) &&& 0xFF) :: ((wsRand seed >>> 16) &&& 0xFF) ::
        ((wsRand seed >>> 8) &&& 0xFF) :: (wsRand seed &&& 0xFF) ::
        xorMask (maskBytes (wsRand seed)) 0 data).getD (2 + 1) 0, ((0x80 ||| (opcode &&& 0x0F)) :: (128 + data.length) ::
        ((wsRand seed >>> 24) &&& 0xFF) :: ((wsRand seed >>> 16) &&& 0xFF) ::
        ((wsRand seed >>> 8) &&& 0xFF) :: (wsRand seed &&& 0xFF) ::
        xorMask (maskBytes (wsRand seed)) 0 data).getD (2 + 2) 0,
      ((0x80 ||| (opcode &&& 0x0F)) :: (128 + data.length) ::
        ((wsRand seed >>> 24) &&& 0xFF) :: ((wsRand seed >>> 16) &&& 0xFF) ::
        ((wsRand seed >>> 8) &&& 0xFF) :: (wsRand seed &&& 0xFF) ::
        xorMask (maskBytes (wsRand seed)) 0 data).getD (2 + 3) 0] = maskBytes (wsRand seed) := rfl
  have hdrop2 : ((0x80 ||| (opcode &&& 0x0F)) :: (128 + data.length) ::
        ((wsRand seed >>> 24) &&& 0xFF) :: ((wsRand seed >>> 16) &&& 0xFF) ::
        ((wsRand seed >>> 8) &&& 0xFF) :: (wsRand seed &&& 0xFF) ::
        xorMask (maskBytes (wsRand seed)) 0 data).drop (2 + 4) = xorMask (maskBytes (wsRand seed)) 0 data := rfl
  have hmod : (128 + data.length) % 128 = data.length := by omega
  rw [hfold2, hdrop2, hmod]
  rw [List.take_of_length_le (le_of_eq (xorMask_length (maskBytes (wsRand seed)) data 0))]
  rw [xorMask_xorMask]
  rw [List.take_of_length_le (by unfold WS_MAX_MESSAGE; omega : data.length ≤ WS_MAX_MESSAGE - 1)]
  simp only [Option.some.injEq, Prod.mk.injEq]
  exact ⟨trivial, trivial, by omega⟩

lemma parseFrame_ext (seed opcode : Nat) (data : List Nat)
    (hop : opcode < 16) (hlo : 126 ≤ data.length)
    (hhi : data.length < 65536) :
    parseFrame ((0x80 ||| (opcode &&& 0x0F)) :: (0x80 ||| 126) ::
        ((data.length >>> 8) &&& 0xFF) :: (data.length &&& 0xFF) ::
        ((wsRand seed >>> 24) &&& 0xFF) :: ((wsRand seed >>> 16) &&& 0xFF) ::
        ((wsRand seed >>> 8) &&& 0xFF) :: (wsRand seed &&& 0xFF) ::
        xorMask (maskBytes (wsRand seed)) 0 data) =
      some (opcode, data.take (WS_MAX_MESSAGE - 1), data.length + 8) := by
  have h0 : ((0x80 ||| (opcode &&& 0x0F)) :: (0x80 ||| 126) ::
        ((data.length >>> 8) &&& 0xFF) :: (data.length &&& 0xFF) ::
        ((wsRand seed >>> 24) &&& 0xFF) :: ((wsRand seed >>> 16) &&& 0xFF) ::
        ((wsRand seed >>> 8) &&& 0xFF) :: (wsRand seed &&& 0xFF) ::
        xorMask (maskBytes (wsRand seed)) 0 data).getD 0 0 = 0x80 ||| (opcode &&& 0x0F) := rfl
  have h1 : ((0x80 ||| (opcode &&& 0x0F)) :: (0x80 ||| 126) ::
        ((data.length >>> 8) &&& 0xFF) :: (data.length &&& 0xFF) ::
        ((wsRand seed >>> 24) &&& 0xFF) :: ((wsRand seed >>> 16) &&& 0xFF) ::
        ((wsRand seed >>> 8) &&& 0xFF) :: (wsRand seed &&& 0xFF) ::
        xorMask (maskBytes (wsRand seed)) 0 data).getD 1 0 = 254 := rfl
  have h2 : ((0x80 ||| (opcode &&& 0x0F)) :: (0x80 ||| 126) ::
        ((data.length >>> 8) &&& 0xFF) :: (data.length &&& 0xFF) ::
        ((wsRand seed >>> 24) &&& 0xFF) :: ((wsRand seed >>> 16) &&& 0xFF) ::
        ((wsRand seed >>> 8) &&& 0xFF) :: (wsRand seed &&& 0xFF) ::
        xorMask (maskBytes (wsRand seed)) 0 data).getD 2 0 = (data.length >>> 8) &&& 0xFF := rfl
  have h3 : ((0x80 ||| (opcode &&& 0x0F)) :: (0x80 ||| 126) ::
        ((data.length >>> 8) &&& 0xFF) :: (data.length &&& 0xFF) ::
        ((wsRand seed >>> 24) &&& 0xFF) :: ((wsRand seed >>> 16) &&& 0xFF) ::
        ((wsRand seed >>> 8) &&& 0xFF) :: (wsRand seed &&& 0xFF) ::
        xorMask (maskBytes (wsRand seed)) 0 data).getD 3 0 = data.length &&& 0xFF := rfl
  have hlen : ((0x80 ||| (opcode &&& 0x0F)) :: (0x80 ||| 126) ::
        ((data.length >>> 8) &&& 0xFF) :: (data.length &&& 0xFF) ::
        ((wsRand seed >>> 24) &&& 0xFF) :: ((wsRand seed >>> 16) &&& 0xFF) ::
        ((wsRand seed >>> 8) &&& 0xFF) :: (wsRand seed &&& 0xFF) ::
        xorMask (maskBytes (wsRand seed)) 0 data).length = data.length + 8 := by
    simp [xorMask_length]
  simp only [parseFrame, hlen, h0, h1, h2, h3, b0_and opcode hop]
  rw [if_neg (by omega : ¬ (data.length + 8 < 2)),
    if_pos (show (254 : Nat) &&& 127 = 126 from by decide),
    if_neg (by omega : ¬ (data.length + 8 < 4))]
  dsimp only
  rw [if_pos (show (254 : Nat) >>> 7 &&& 1 = 1 from by decide)]
  rw [if_neg (by omega : ¬ (4 + 4 > data.length + 8))]
  dsimp only
  rw [ext_len_roundtrip data.length (by omega)]
  rw [if_neg (by omega : ¬ (4 + 4 + data.length > data.length + 8))]
  rw [if_pos (show (254 : Nat) >>> 7 &&& 1 = 1 from by decide)]
  have hfold2 : [((0x80 ||| (opcode &&& 0x0F)) :: (0x80 ||| 126) ::
        ((data.length >>> 8) &&& 0xFF) :: (data.length &&& 0xFF) ::
        ((wsRand seed >>> 24) &&& 0xFF) :: ((wsRand seed >>> 16) &&& 0xFF) ::
        ((wsRand seed >>> 8) &&& 0xFF) :: (wsRand seed &&& 0xFF) ::
        xorMask (maskBytes (wsRand seed)) 0 data).getD 4 0, ((0x80 ||| (opcode &&& 0x0F)) :: (0x80 ||| 126) ::
        ((data.length >>> 8) &&& 0xFF) :: (data.length &&& 0xFF) ::
        ((wsRand seed >>> 24) &&& 0xFF) :: ((wsRand seed >>> 16) &&& 0xFF) ::
        ((wsRand seed >>> 8) &&& 0xFF) :: (wsRand seed &&& 0xFF) ::
        xorMask (maskBytes (wsRand seed)) 0 data).getD (4 + 1) 0, ((0x80 ||| (opcode &&& 0x0F)) :: (0x80 ||| 126) ::
        ((data.length >>> 8) &&& 0xFF) :: (data.length &&& 0xFF) ::
        ((wsRand seed >>> 24) &&& 0xFF) :: ((wsRand seed >>> 16) &&& 0xFF) ::
        ((wsRand seed >>> 8) &&& 0xFF) :: (wsRand seed &&& 0xFF) ::
        xorMask (maskBytes (wsRand seed)) 0 data).getD (4 + 2) 0,
      ((0x80 ||| (opcode &&& 0x0F)) :: (0x80 ||| 126) ::
        ((data.length >>> 8) &&& 0xFF) :: (data.length &&& 0xFF) ::
        ((wsRand seed >>> 24) &&& 0xFF) :: ((wsRand seed >>> 16) &&& 0xFF) ::
        ((wsRand seed >>> 8) &&& 0xFF) :: (wsRand seed &&& 0xFF) ::
        xorMask (maskBytes (wsRand seed)) 0 data).getD (4 + 3) 0] = maskBytes (wsRand seed) := rfl
  have hdrop2 : ((0x80 ||| (opcode &&& 0x0F)) :: (0x80 ||| 126) ::
        ((data.length >>> 8) &&& 0xFF) :: (data.length &&& 0xFF) ::
        ((wsRand seed >>> 24) &&& 0xFF) :: ((wsRand seed >>> 16) &&& 0xFF) ::
        ((wsRand seed >>> 8) &&& 0xFF) :: (wsRand seed &&& 0xFF) ::
        xorMask (maskBytes (wsRand seed)) 0 data).drop (4 + 4) = xorMask (maskBytes (wsRand seed)) 0 data := rfl
  rw [hfold2, hdrop2]
  rw [List.take_of_length_le (le_of_eq (xorMask_length (maskBytes (wsRand seed)) data 0))]
  rw [xorMask_xorMask]
  simp only [Option.some.injEq, Prod.mk.injEq]
  exact ⟨trivial, trivial, by omega⟩

/-- C8 (amended): for every opcode below 16 and every payload of at most
`WS_MAX_MESSAGE - 1 = 2047` bytes, the masked client frame built by
`send_frame` is decoded by `parse_frame` back to exactly the original
payload and opcode (consuming the whole frame).  Payloads of 2048..2054
bytes still fit the `WS_MAX_MESSAGE + 14` frame buffer but are truncated to
2047 bytes by the parser's `rx_len < WS_MAX_MESSAGE - 1` copy bound; see the
counterexample. -/
theorem ws_frame_roundtrip (seed opcode : Nat) (data : List Nat)
    (hop : opcode < 16) (hlen : data.length ≤ WS_MAX_MESSAGE - 1) :
    ∃ frame, sendFrameBytes seed opcode data = some frame ∧
      parseFrame frame = some (opcode, data, frame.length) := by
  by_cases hsmall : data.length < 126
  · refine ⟨((0x80 ||| (opcode &&& 0x0F)) :: (0x80 ||| data.length) ::
        ((wsRand seed >>> 24) &&& 0xFF) :: ((wsRand seed >>> 16) &&& 0xFF) ::
        ((wsRand seed >>> 8) &&& 0xFF) :: (wsRand seed &&& 0xFF) ::
        xorMask (maskBytes (wsRand seed)) 0 data), ?_, ?_⟩
    · simp [sendFrameBytes, hsmall, maskBytes]
    · have hfl : (((0x80 ||| (opcode &&& 0x0F)) :: (0x80 ||| data.length) ::
        ((wsRand seed >>> 24) &&& 0xFF) :: ((wsRand seed >>> 16) &&& 0xFF) ::
        ((wsRand seed >>> 8) &&& 0xFF) :: (wsRand seed &&& 0xFF) ::
        xorMask (maskBytes (wsRand seed)) 0 data) : List Nat).length = data.length + 6 := by
        simp [xorMask_length]
      rw [hfl]
      exact parseFrame_small seed opcode data hop hsmall
  · refine ⟨((0x80 ||| (opcode &&& 0x0F)) :: (0x80 ||| 126) ::
        ((data.length >>> 8) &&& 0xFF) :: (data.length &&& 0xFF) ::
        ((wsRand seed >>> 24) &&& 0xFF) :: ((wsRand seed >>> 16) &&& 0xFF) ::
        ((wsRand seed >>> 8) &&& 0xFF) :: (wsRand seed &&& 0xFF) ::
        xorMask (maskBytes (wsRand seed)) 0 data), ?_, ?_⟩
    · have : ¬ data.length < 126 := hsmall
      have h2 : data.length < 65536 := by
        have := hlen
        unfold WS_MAX_MESSAGE at this
        omega
      simp [sendFrameBytes, this, h2, maskBytes]
    · have hfl : (((0x80 ||| (opcode &&& 0x0F)) :: (0x80 ||| 126) ::
        ((data.length >>> 8) &&& 0xFF) :: (data.length &&& 0xFF) ::
        ((wsRand seed >>> 24) &&& 0xFF) :: ((wsRand seed >>> 16) &&& 0xFF) ::
        ((wsRand seed >>> 8) &&& 0xFF) :: (wsRand seed &&& 0xFF) ::
        xorMask (maskBytes (wsRand seed)) 0 data) : List Nat).length = data.length + 8 := by
        simp [xorMask_length]
      rw [hfl]
      have h2 := parseFrame_ext seed opcode data hop (by omega)
        (by unfold WS_MAX_MESSAGE at hlen; omega)
      rwa [List.take_of_length_le hlen] at h2

/-- Witness for the amended C8 at concrete inputs. -/
theorem ws_frame_roundtrip_witness :
    ∃ frame, sendFrameBytes 7 1 [104, 105] = some frame ∧
      parseFrame frame = some (1, [104, 105], frame.length) :=
  ws_frame_roundtrip 7 1 [104, 105] (by decide) (by decide)

/-- C8 counterexample: a 2048-byte binary payload fits the `send_frame`
frame buffer (frame length 2056 ≤ `WS_MAX_MESSAGE + 14`), but the parser
copies only 2047 bytes into `rx_buffer`, so the round trip does not
reproduce the payload. -/
theorem ws_frame_roundtrip_counterexample :
    (sendFrameBytes 1 2 (List.replicate 2048 0)).map List.length =
        some 2056 ∧
    2056 ≤ WS_MAX_MESSAGE + 14 ∧
    ((sendFrameBytes 1 2 (List.replicate 2048 0)).bind parseFrame).map
        (fun r => (r.1, r.2.1.length)) = some (2, 2047) ∧
    (2047 : Nat) ≠ 2048 := by
  have hsend : sendFrameBytes 1 2 (List.replicate 2048 0) =
      some ((0x80 ||| (2 &&& 0x0F)) :: (0x80 ||| 126) ::
        ((2048 >>> 8) &&& 0xFF) :: (2048 &&& 0xFF) ::
        ((wsRand 1 >>> 24) &&& 0xFF) :: ((wsRand 1 >>> 16) &&& 0xFF) ::
        ((wsRand 1 >>> 8) &&& 0xFF) :: (wsRand 1 &&& 0xFF) ::
        xorMask (maskBytes (wsRand 1)) 0 (List.replicate 2048 0)) := by
    unfold sendFrameBytes
    rw [List.length_replicate]
    rw [if_neg (by omega : ¬ ((2048 : Nat) < 126)),
      if_pos (by omega : (2048 : Nat) < 65536)]
    rw [show maskBytes (wsRand 1) ++
        xorMask (maskBytes (wsRand 1)) 0 (List.replicate 2048 0) =
        ((wsRand 1 >>> 24) &&& 0xFF) :: ((wsRand 1 >>> 16) &&& 0xFF) ::
        ((wsRand 1 >>> 8) &&& 0xFF) :: (wsRand 1 &&& 0xFF) ::
        xorMask (maskBytes (wsRand 1)) 0 (List.replicate 2048 0) from rfl]
  have hparse := parseFrame_ext 1 2 (List.replicate 2048 (0 : Nat))
    (by omega) (by rw [List.length_replicate]; omega)
    (by rw [List.length_replicate]; omega)
  rw [List.length_replicate] at hparse
  refine ⟨?_, by unfold WS_MAX_MESSAGE; omega, ?_, by omega⟩
  · rw [hsend]
    rw [Option.map_some']
    simp only [List.length_cons, xorMask_length, List.length_replicate]
  · rw [hsend]
    rw [Option.some_bind, hparse, Option.map_some']
    dsimp only
    simp only [List.take_replicate, List.length_replicate]
    rw [show WS_MAX_MESSAGE - 1 = 2047 from rfl,
      show min 2047 2048 = 2047 from rfl]

end Ws

namespace Dns

/-
net.c `handle_dns_response` (lines 809-865), acting on the active pending
query whose `query_id` is `qid` (`uint16_t`).  The packet is a byte list;
pointers become indices.  The two name-skipping loops advance the index by
at least one per iteration, so `d.length` iterations always suffice; they
are written with that fuel to stay structurally recursive (the fuel is
never exhausted while the index is in bounds).
-/

inductive DnsOutcome where
  | unchanged
  | error
  | done (ip : List Nat)
  deriving Repr, DecidableEq

/-- net.c lines 837-841: the QNAME-skipping loop
`while (p < end && *p != 0) { if ((*p & 0xC0) == 0xC0) { p += 2; break; }
p += *p + 1; }`. -/
def skipQNameLoop (d : List Nat) : Nat → Nat → Nat
  | 0, p => p
  | fuel + 1, p =>
    if p < d.length ∧ d.getD p 0 ≠ 0 then
      if (d.getD p 0) &&& 0xC0 = 0xC0 then p + 2
      else skipQNameLoop d fuel (p + d.getD p 0 + 1)
    else p

/-- net.c lines 850-851: the label loop of the answer-name skip
`while (p < end && *p != 0) p += *p + 1;`. -/
def skipLabels (d : List Nat) : Nat → Nat → Nat
  | 0, p => p
  | fuel + 1, p =>
    if p < d.length ∧ d.getD p 0 ≠ 0 then
      skipLabels d fuel (p + d.getD p 0 + 1)
    else p

/-- net.c lines 837-842: skip the question name, including the trailing
`if (p < end && *p == 0) p++;`. -/
def skipQName (d : List Nat) (p : Nat) : Nat :=
  let q := skipQNameLoop d d.length p
  if q < d.length ∧ d.getD q 0 = 0 then q + 1 else q

/-- net.c lines 848-853: skip the (possibly pointer-compressed) answer
name. -/
def skipAnswerName (d : List Nat) (p : Nat) : Nat :=
  if (d.getD p 0) &&& 0xC0 = 0xC0 then p + 2
  else
    let q := skipLabels d d.length p
    if q < d.length ∧ d.getD q 0 = 0 then q + 1 else q

/-- net.c lines 809-865 `handle_dns_response`: the transition applied to
the active pending query with id `qid`. -/
def handleDnsResponse (d : List Nat) (qid : Nat) : DnsOutcome :=
  if d.length < 12 then .unchanged
  else
    let id := ((d.getD 0 0) <<< 8) ||| d.getD 1 0
    if id ≠ qid then .unchanged
    else
      let flags := ((d.getD 2 0) <<< 8) ||| d.getD 3 0
      if flags &&& 0x8000 = 0 then .unchanged
      else if flags &&& 0x000F ≠ 0 then .error
      else
        let ancount := ((d.getD 6 0) <<< 8) ||| d.getD 7 0
        if ancount = 0 then .error
        else
          let p2 := skipQName d 12 + 4
          if p2 + 12 > d.length then .unchanged
          else
            let p3 := skipAnswerName d p2
            if p3 + 10 > d.length then .unchanged
            else
              let atype := ((d.getD p3 0) <<< 8) ||| d.getD (p3 + 1) 0
              let rdlen := ((d.getD (p3 + 8) 0) <<< 8) ||| d.getD (p3 + 9) 0
              if atype = 1 ∧ rdlen = 4 ∧ p3 + 10 + 4 ≤ d.length then
                .done [d.getD (p3 + 10) 0, d.getD (p3 + 11) 0,
                  d.getD (p3 + 12) 0, d.getD (p3 + 13) 0]
              else .error

/-
Claim-side reference decoder of a DNS message, following the spec's words
(header with id / flags / counts, question section, then the answer
records, each `name, type, class, ttl, rdlength, rdata`), used to state
what "the answer records of the response" are when comparing the claim
against the code.
-/

structure SpecAnswer where
  atype : Nat
  rdlen : Nat
  rdata : List Nat
  deriving Repr, DecidableEq

/-- Reference name skip: a name is either a sequence of labels ended by a
zero byte, or ends at a compression pointer (high bits `11`). -/
def specSkipName (d : List Nat) : Nat → Nat → Option Nat
  | 0, _ => none
  | fuel + 1, p =>
    if p ≥ d.length then none
    else if d.getD p 0 = 0 then some (p + 1)
    else if (d.getD p 0) &&& 0xC0 = 0xC0 then
      if p + 2 ≤ d.length then some (p + 2) else none
    else specSkipName d fuel (p + d.getD p 0 + 1)

/-- Reference decoding of `count` answer records starting at `p`. -/
def specAnswersFrom (d : List Nat) : Nat → Nat → Nat → Option (List SpecAnswer)
  | 0, _, _ => none
  | _ + 1, p, 0 => if p = d.length ∨ p < d.length then some [] else none
  | fuel + 1, p, count + 1 =>
    match specSkipName d d.length p with
    | none => none
    | some p1 =>
      if p1 + 10 > d.length then none
      else
        let atype := 256 * d.getD p1 0 + d.getD (p1 + 1) 0
        let rdlen := 256 * d.getD (p1 + 8) 0 + d.getD (p1 + 9) 0
        if p1 + 10 + rdlen > d.length then none
        else
          match specAnswersFrom d fuel (p1 + 10 + rdlen) count with
          | none => none
          | some rest =>
            some (⟨atype, rdlen, (d.drop (p1 + 10)).take rdlen⟩ :: rest)

/-- Reference decoding of a whole response: id, RCODE and answer records
(skipping QDCOUNT questions). -/
def specParse (d : List Nat) : Option (Nat × Nat × List SpecAnswer) :=
  if d.length < 12 then none
  else
    let id := 256 * d.getD 0 0 + d.getD 1 0
    let rcode := (256 * d.getD 2 0 + d.getD 3 0) % 16
    let qdcount := 256 * d.getD 4 0 + d.getD 5 0
    let ancount := 256 * d.getD 6 0 + d.getD 7 0
    let rec skipQs : Nat → Nat → Nat → Option Nat
      | 0, _, _ => none
      | _ + 1, p, 0 => some p
      | fuel + 1, p, k + 1 =>
        match specSkipName d d.length p with
        | none => none
        | some p1 => if p1 + 4 ≤ d.length then skipQs fuel (p1 + 4) k else none
    match skipQs (d.length + 1) 12 qdcount with
    | none => none
    | some pAns =>
      match specAnswersFrom d (d.length + 1) pAns ancount with
      | none => none
      | some answers => some (id, rcode, answers)

/-- The concrete response used to refute C6 as stated: id `0x1234`,
flags `0x8180` (QR, RD, RA, RCODE 0), one question (`a`, type A, class IN),
and two answers with pointer-compressed names: first a CNAME record
(type 5, rdlength 3), then an A record (type 1, rdlength 4, address
1.2.3.4). -/
def cexResponse : List Nat :=
  [0x12, 0x34, 0x81, 0x80, 0, 1, 0, 2, 0, 0, 0, 0] ++
  [1, 97, 0, 0, 1, 0, 1] ++
  [0xC0, 0x0C, 0, 5, 0, 1, 0, 0, 0, 0, 0, 3, 1, 98, 0] ++
  [0xC0, 0x0C, 0, 1, 0, 1, 0, 0, 0, 0, 0, 4, 1, 2, 3, 4]

/-- C6 counterexample: the response `cexResponse` has matching id, RCODE 0
and contains an answer record of type A with rdlength 4 (address
`1.2.3.4`), so the claim requires the query to become `done` with
`1.2.3.4`; the code only examines the first answer record (the CNAME) and
transitions the query to `error` instead. -/
theorem dns_first_answer_only_counterexample :
    (specParse cexResponse).map (fun r => (r.1, r.2.1)) = some (0x1234, 0) ∧
    ((specParse cexResponse).map (fun r => r.2.2.any
      (fun a => a.atype == 1 && a.rdlen == 4 && a.rdata == [1, 2, 3, 4]))) =
      some true ∧
    handleDnsResponse cexResponse 0x1234 = DnsOutcome.error ∧
    DnsOutcome.error ≠ DnsOutcome.done [1, 2, 3, 4] := by decide


/-
The amended claim is settled over canonically encoded responses: a header
with the given id and RCODE, one label-encoded question, and answer
records with pointer-compressed names.
-/

structure AnswerRec where
  atype : Nat
  rdlen : Nat
  rdata : List Nat

/-- A DNS name as length-prefixed labels ended by a zero byte. -/
def encodeName (labels : List (List Nat)) : List Nat :=
  labels.foldr (fun l acc => (l.length :: l) ++ acc) [0]

/-- One answer record: pointer-compressed name (`C0 0C`), type, class IN,
TTL 0, rdlength, rdata. -/
def encodeAnswer (a : AnswerRec) : List Nat :=
  [0xC0, 0x0C, a.atype / 256, a.atype % 256, 0, 1, 0, 0, 0, 0,
   a.rdlen / 256, a.rdlen % 256] ++ a.rdata

/-- A canonical response: header (id, flags `0x81 (0x80+rcode)`, QDCOUNT 1,
ANCOUNT, zero NS/AR counts), the question (name, type A, class IN), the
answers. -/
def mkDnsResponse (qid rcode : Nat) (labels : List (List Nat))
    (answers : List AnswerRec) : List Nat :=
  [qid / 256, qid % 256, 0x81, 0x80 + rcode, 0, 1,
   answers.length / 256, answers.length % 256, 0, 0, 0, 0] ++
  (encodeName labels ++ ([0, 1, 0, 1] ++ (answers.map encodeAnswer).flatten))

lemma encodeName_cons (l : List Nat) (ls : List (List Nat)) :
    encodeName (l :: ls) = (l.length :: l) ++ encodeName ls := rfl

lemma encodeName_length_pos (labels : List (List Nat)) :
    1 ≤ (encodeName labels).length := by
  induction labels with
  | nil => simp [encodeName]
  | cons l ls ih =>
    simp only [encodeName_cons, List.length_append, List.length_cons]
    omega

lemma skipQNameLoop_encodeName (pre rest : List Nat)
    (labels : List (List Nat)) (fuel : Nat)
    (hl : ∀ l ∈ labels, 1 ≤ l.length ∧ l.length ≤ 63)
    (hfuel : labels.length < fuel) :
    skipQNameLoop (pre ++ (encodeName labels ++ rest)) fuel pre.length =
      pre.length + ((encodeName labels).length - 1) := by
  induction labels generalizing pre fuel with
  | nil =>
    cases fuel with
    | zero => omega
    | succ f =>
      have hb : (pre ++ (encodeName [] ++ rest)).getD pre.length 0 = 0 := by
        rw [List.getD_append_right pre _ 0 pre.length (le_refl _)]
        simp [encodeName]
      rw [skipQNameLoop]
      rw [if_neg (fun hcon => hcon.2 hb)]
      simp [encodeName]
  | cons l ls ih =>
    cases fuel with
    | zero => omega
    | succ f =>
      have hll := hl l (List.mem_cons_self l ls)
      have hb : (pre ++ (encodeName (l :: ls) ++ rest)).getD pre.length 0 =
          l.length := by
        rw [List.getD_append_right pre _ 0 pre.length (le_refl _)]
        simp [encodeName_cons]
      have hlen : pre.length < (pre ++ (encodeName (l :: ls) ++ rest)).length := by
        simp only [encodeName_cons, List.length_append, List.length_cons,
          List.cons_append]
        omega
      rw [skipQNameLoop]
      rw [if_pos ⟨hlen, by rw [hb]; omega⟩]
      rw [if_neg (by
        rw [hb]
        intro hcon
        have := Nat.and_le_left (n := l.length) (m := 0xC0)
        omega)]
      rw [hb]
      have hstruct : pre ++ (encodeName (l :: ls) ++ rest) =
          (pre ++ (l.length :: l)) ++ (encodeName ls ++ rest) := by
        rw [encodeName_cons]
        simp [List.append_assoc]
      have hplen : pre.length + l.length + 1 =
          (pre ++ (l.length :: l)).length := by
        simp
        omega
      rw [hstruct, hplen,
        ih (pre ++ (l.length :: l)) f
          (fun x hx => hl x (List.mem_cons_of_mem l hx))
          (by simp at hfuel ⊢; omega)]
      have hpos := encodeName_length_pos ls
      simp only [encodeName_cons, List.length_append, List.length_cons]
      omega


lemma encodeName_length_ge (labels : List (List Nat)) :
    labels.length + 1 ≤ (encodeName labels).length := by
  induction labels with
  | nil => simp [encodeName]
  | cons l ls ih =>
    simp only [encodeName_cons, List.length_append, List.length_cons,
      List.length_cons]
    omega

lemma encodeName_last (labels : List (List Nat)) :
    (encodeName labels).getD ((encodeName labels).length - 1) 0 = 0 := by
  induction labels with
  | nil => rfl
  | cons l ls ih =>
    have hpos := encodeName_length_pos ls
    rw [encodeName_cons]
    rw [List.getD_append_right (l.length :: l) (encodeName ls) 0 _ (by
      simp only [List.length_append, List.length_cons]
      omega)]
    simp only [List.length_append, List.length_cons]
    rw [show l.length + 1 + (encodeName ls).length - 1 - (l.length + 1) =
      (encodeName ls).length - 1 from by omega]
    exact ih

lemma skipQName_encodeName (pre rest : List Nat) (labels : List (List Nat))
    (hl : ∀ l ∈ labels, 1 ≤ l.length ∧ l.length ≤ 63) :
    skipQName (pre ++ (encodeName labels ++ rest)) pre.length =
      pre.length + (encodeName labels).length := by
  have hge := encodeName_length_ge labels
  have hpos := encodeName_length_pos labels
  have hloop := skipQNameLoop_encodeName pre rest labels
    (pre ++ (encodeName labels ++ rest)).length hl
    (by simp only [List.length_append]; omega)
  unfold skipQName
  rw [hloop]
  have hq : (pre ++ (encodeName labels ++ rest)).getD
      (pre.length + ((encodeName labels).length - 1)) 0 = 0 := by
    rw [List.getD_append_right pre _ 0 _ (by omega),
      List.getD_append (encodeName labels) rest 0 _ (by omega)]
    rw [show pre.length + ((encodeName labels).length - 1) - pre.length =
      (encodeName labels).length - 1 from by omega]
    exact encodeName_last labels
  rw [if_pos ⟨by simp only [List.length_append]; omega, hq⟩]
  omega

lemma list_eq_of_length_four (l : List Nat) (h : l.length = 4) :
    [l.getD 0 0, l.getD 1 0, l.getD 2 0, l.getD 3 0] = l := by
  match l, h with
  | [a, b, c, d], _ => rfl


/-- C6 (amended): while a query with id `qid` is pending, a canonically
encoded response with matching id behaves as follows: RCODE ≠ 0 or an empty
answer section moves the query to `error`; otherwise the code examines only
the FIRST answer record — if it has type A and rdlength 4 the query becomes
`done` with that record's 4-byte address, and otherwise (even when a later
record is a well-formed A record) it becomes `error`.  A response whose id
does not match leaves the query unchanged. -/
theorem dns_response_first_answer
    (qid rcode : Nat) (labels : List (List Nat)) (answers : List AnswerRec)
    (hqid : qid < 65536) (hrcode : rcode < 16)
    (hlabels : ∀ l ∈ labels, 1 ≤ l.length ∧ l.length ≤ 63)
    (hanswers : ∀ a ∈ answers, a.atype < 65536 ∧ a.rdlen < 65536 ∧
      a.rdata.length = a.rdlen) :
    (handleDnsResponse (mkDnsResponse qid rcode labels answers) qid =
      if rcode ≠ 0 then DnsOutcome.error
      else match answers with
        | [] => DnsOutcome.error
        | a :: _ =>
          if a.atype = 1 ∧ a.rdlen = 4 then DnsOutcome.done a.rdata
          else DnsOutcome.error) ∧
    (∀ qid', qid' ≠ qid →
      handleDnsResponse (mkDnsResponse qid rcode labels answers) qid' = DnsOutcome.unchanged) := by
  have hge := encodeName_length_ge labels
  have hpos := encodeName_length_pos labels
  have hdlen : (mkDnsResponse qid rcode labels answers).length =
      16 + (encodeName labels).length + ((answers.map encodeAnswer).flatten).length := by
    unfold mkDnsResponse
    simp only [List.length_append, List.length_cons, List.length_nil]
    omega
  have hid : (((mkDnsResponse qid rcode labels answers).getD 0 0) <<< 8) ||| (mkDnsResponse qid rcode labels answers).getD 1 0 = qid := by
    rw [show (mkDnsResponse qid rcode labels answers).getD 0 0 = qid / 256 from rfl,
      show (mkDnsResponse qid rcode labels answers).getD 1 0 = qid % 256 from rfl,
      Bits.be16 _ _ (Nat.mod_lt _ (by omega))]
    omega
  have hflags : (((mkDnsResponse qid rcode labels answers).getD 2 0) <<< 8) ||| (mkDnsResponse qid rcode labels answers).getD 3 0 =
      256 * 129 + (128 + rcode) := by
    rw [show (mkDnsResponse qid rcode labels answers).getD 2 0 = 0x81 from rfl,
      show (mkDnsResponse qid rcode labels answers).getD 3 0 = 0x80 + rcode from rfl,
      Bits.be16 _ _ (by omega)]
  have hanc : (((mkDnsResponse qid rcode labels answers).getD 6 0) <<< 8) ||| (mkDnsResponse qid rcode labels answers).getD 7 0 =
      answers.length := by
    rw [show (mkDnsResponse qid rcode labels answers).getD 6 0 = answers.length / 256 from rfl,
      show (mkDnsResponse qid rcode labels answers).getD 7 0 = answers.length % 256 from rfl,
      Bits.be16 _ _ (Nat.mod_lt _ (by omega))]
    omega
  have hflagtest : (256 * 129 + (128 + rcode)) &&& 0x8000 ≠ 0 := by
    have h := (by decide :
      ∀ r, r < 16 → (256 * 129 + (128 + r)) &&& 0x8000 ≠ 0)
    exact h rcode hrcode
  have hrcodetest : (256 * 129 + (128 + rcode)) &&& 0x000F = rcode := by
    have h := (by decide :
      ∀ r, r < 16 → (256 * 129 + (128 + r)) &&& 0x000F = r)
    exact h rcode hrcode
  have hskip : skipQName (mkDnsResponse qid rcode labels answers) 12 = 12 + (encodeName labels).length :=
    skipQName_encodeName
      [qid / 256, qid % 256, 0x81, 0x80 + rcode, 0, 1,
      answers.length / 256, answers.length % 256, 0, 0, 0, 0]
      ([0, 1, 0, 1] ++ ((answers.map encodeAnswer).flatten)) labels hlabels
  have hd2 : (mkDnsResponse qid rcode labels answers) =
      ([qid / 256, qid % 256, 0x81, 0x80 + rcode, 0, 1,
      answers.length / 256, answers.length % 256, 0, 0, 0, 0] ++ ((encodeName labels) ++ [0, 1, 0, 1])) ++ ((answers.map encodeAnswer).flatten) := by
    unfold mkDnsResponse
    simp [List.append_assoc]
  have hpre2len : ([qid / 256, qid % 256, 0x81, 0x80 + rcode, 0, 1,
      answers.length / 256, answers.length % 256, 0, 0, 0, 0] ++ ((encodeName labels) ++ [0, 1, 0, 1])).length =
      16 + (encodeName labels).length := by
    simp only [List.length_append, List.length_cons, List.length_nil]
    omega
  have hjoin : ∀ pos k, pos = 16 + (encodeName labels).length + k →
      (mkDnsResponse qid rcode labels answers).getD pos 0 = ((answers.map encodeAnswer).flatten).getD k 0 := by
    intro pos k hpk
    rw [hd2, List.getD_append_right _ _ 0 _ (by rw [hpre2len]; omega)]
    congr 1
    rw [hpre2len]
    omega
  constructor
  · simp only [handleDnsResponse, hid, hflags, hanc, hskip]
    rw [if_neg (by omega : ¬ (mkDnsResponse qid rcode labels answers).length < 12),
      if_neg (by omega : ¬ (qid ≠ qid)),
      if_neg hflagtest, hrcodetest]
    by_cases hr : rcode = 0
    · rw [if_neg (by omega : ¬ rcode ≠ 0), if_neg (by omega : ¬ rcode ≠ 0)]
      cases answers with
      | nil => simp
      | cons a rest =>
        obtain ⟨hat, hrd, hrdata⟩ := hanswers a (List.mem_cons_self a rest)
        have hflatlen : 12 + a.rdata.length ≤ (((a :: rest).map encodeAnswer).flatten).length := by
          simp only [List.map_cons, List.flatten_cons, List.length_append,
            encodeAnswer, List.length_cons]
          omega
        have hflatk : ∀ k, k < 12 + a.rdata.length →
            (((a :: rest).map encodeAnswer).flatten).getD k 0 = (encodeAnswer a).getD k 0 := by
          intro k hk
          simp only [List.map_cons, List.flatten_cons]
          rw [List.getD_append _ _ 0 _ (by
            simp only [encodeAnswer, List.length_append, List.length_cons]
            omega)]
        rw [if_neg (by simp : ¬ ((a :: rest).length = 0))]
        rw [if_neg (by omega :
          ¬ (12 + (encodeName labels).length + 4 + 12 > (mkDnsResponse qid rcode labels (a :: rest)).length))]
        rw [show skipAnswerName (mkDnsResponse qid rcode labels (a :: rest)) (12 + (encodeName labels).length + 4) =
            12 + (encodeName labels).length + 4 + 2 from by
          unfold skipAnswerName
          rw [hjoin (12 + (encodeName labels).length + 4) 0 (by omega), hflatk 0 (by omega),
            show (encodeAnswer a).getD 0 0 = 0xC0 from rfl]
          rw [if_pos (by decide : (0xC0 : Nat) &&& 0xC0 = 0xC0)]]
        rw [if_neg (by omega :
          ¬ (12 + (encodeName labels).length + 4 + 2 + 10 > (mkDnsResponse qid rcode labels (a :: rest)).length))]
        rw [hjoin (12 + (encodeName labels).length + 4 + 2) 2 (by omega),
          hjoin (12 + (encodeName labels).length + 4 + 2 + 1) 3 (by omega),
          hjoin (12 + (encodeName labels).length + 4 + 2 + 8) 10 (by omega),
          hjoin (12 + (encodeName labels).length + 4 + 2 + 9) 11 (by omega),
          hflatk 2 (by omega), hflatk 3 (by omega),
          hflatk 10 (by omega), hflatk 11 (by omega),
          show (encodeAnswer a).getD 2 0 = a.atype / 256 from rfl,
          show (encodeAnswer a).getD 3 0 = a.atype % 256 from rfl,
          show (encodeAnswer a).getD 10 0 = a.rdlen / 256 from rfl,
          show (encodeAnswer a).getD 11 0 = a.rdlen % 256 from rfl,
          Bits.be16 _ _ (Nat.mod_lt _ (by omega)),
          Bits.be16 _ _ (Nat.mod_lt _ (by omega)),
          Nat.div_add_mod a.atype 256, Nat.div_add_mod a.rdlen 256]
        by_cases hA : a.atype = 1 ∧ a.rdlen = 4
        · have hrd4 : a.rdata.length = 4 := by rw [hrdata, hA.2]
          rw [if_pos ⟨hA.1, hA.2, by omega⟩]
          rw [hjoin (12 + (encodeName labels).length + 4 + 2 + 10) 12 (by omega),
            hjoin (12 + (encodeName labels).length + 4 + 2 + 11) 13 (by omega),
            hjoin (12 + (encodeName labels).length + 4 + 2 + 12) 14 (by omega),
            hjoin (12 + (encodeName labels).length + 4 + 2 + 13) 15 (by omega),
            hflatk 12 (by omega), hflatk 13 (by omega),
            hflatk 14 (by omega), hflatk 15 (by omega),
            show (encodeAnswer a).getD 12 0 = a.rdata.getD 0 0 from rfl,
            show (encodeAnswer a).getD 13 0 = a.rdata.getD 1 0 from rfl,
            show (encodeAnswer a).getD 14 0 = a.rdata.getD 2 0 from rfl,
            show (encodeAnswer a).getD 15 0 = a.rdata.getD 3 0 from rfl]
          dsimp only
          rw [if_pos hA, list_eq_of_length_four a.rdata hrd4]
        · rw [if_neg (by
            intro hcon
            exact hA ⟨hcon.1, hcon.2.1⟩)]
          dsimp only
          rw [if_neg hA]
    · rw [if_pos (by omega : rcode ≠ 0), if_pos (by omega : rcode ≠ 0)]
  · intro qid' hne
    simp only [handleDnsResponse, hid]
    rw [if_neg (by omega : ¬ (mkDnsResponse qid rcode labels answers).length < 12),
      if_pos (by omega : qid ≠ qid')]

/-- Witness for the amended C6 at concrete inputs: a response with one
A/rdlength-4 answer resolves to `done`, and an id mismatch leaves the query
unchanged. -/
theorem dns_response_first_answer_witness :
    handleDnsResponse
        (mkDnsResponse 7 0 [[97]] [⟨1, 4, [10, 0, 2, 3]⟩]) 7 =
      DnsOutcome.done [10, 0, 2, 3] ∧
    handleDnsResponse
        (mkDnsResponse 7 0 [[97]] [⟨1, 4, [10, 0, 2, 3]⟩]) 8 =
      DnsOutcome.unchanged := by
  have h := dns_response_first_answer 7 0 [[97]] [⟨1, 4, [10, 0, 2, 3]⟩]
    (by decide) (by decide)
    (by intro l hl; simp only [List.mem_singleton] at hl; subst hl
        exact ⟨by decide, by decide⟩)
    (by intro a ha; simp only [List.mem_singleton] at ha; subst ha
        exact ⟨by decide, by decide, by decide⟩)
  refine ⟨?_, h.2 8 (by decide)⟩
  have h1 := h.1
  simpa using h1

end Dns

/-!
## TinyFS (`src/kernel/fs.c`) — claims C1 and C7

Shallow embedding of the TinyFS layer.  Disk layout (fs.c lines 1-21):
sector 0 superblock, sectors 1-8 FAT, sectors 9-12 root directory,
sectors 13+ data clusters (2048 bytes = 4 sectors each).

Modelling conventions:
* Cached state (`superblock`, `fat[2048]`, `root_dir[64]`, `open_files[8]`)
  is carried in `FsState`; arrays become total functions `Nat → _` whose
  values beyond the C array bound are never consulted by the translated code.
* The data region of the disk is `data : sector → offset → byte`.  Metadata
  flushes (`write_superblock`/`write_fat`/`write_root_dir`, sectors 0-12) never
  alias a data sector: `cluster_to_sector c = 13 + 4*c ≥ 17` for every
  allocated cluster (cluster 0 is reserved as `FAT_EOF` by `fs_format` and
  `alloc_cluster` starts scanning at 1), and the cached copies are never read
  back from disk outside `fs_init`; so flushes are modelled as identities on
  `data`.  Their success/failure is only inspected by `fs_format` and the
  create branch of `fs_open` (fs.c 218-220, 265-268); elsewhere the C code
  ignores the return value (fs.c 275-276, 388-390, 435-437, 514-516).
* `blk_read`/`blk_write` failure is modelled by the flags `rFail`/`wFail`.
* C strings (filenames) are NUL-free byte lists; `str_cpy dst src max`
  becomes `List.take (max - 1)` and `str_cmp = 0` becomes list equality.
* `uint32_t` arithmetic wraps with an explicit `% 4294967296` where the C
  value can grow (`f->pos += to_copy`).
* Loops are given fuel.  Both the `fs_read` and `fs_write` loop copy at
  least one byte per iteration (`to_copy = 512 - sector_offset ≥ 1`, capped
  by the remaining length), so fuel = requested length is exact.
-/

namespace Fs

def FAT_FREE : Nat := 0
def FAT_EOF : Nat := 65535
def FS_CLUSTER_SIZE : Nat := 2048
def FS_SECTORS_PER_CLUSTER : Nat := 4
def DATA_START_SECTOR : Nat := 13
def FS_MAX_OPEN : Nat := 8
def FS_MAX_FILES : Nat := 64
def FS_MAX_FILENAME : Nat := 20
def FS_O_READ : Nat := 1
def FS_O_WRITE : Nat := 2
def FS_O_CREATE : Nat := 4
def FS_O_TRUNC : Nat := 8
def FS_O_APPEND : Nat := 16

/-- Pointwise update of a `Nat`-indexed function (a C array store). -/
def upd {α : Type} (f : Nat → α) (i : Nat) (v : α) : Nat → α :=
  fun j => if j = i then v else f j

/-- Update one sector of the disk data region. -/
def upd2 (d : Nat → Nat → Nat) (s : Nat) (b : Nat → Nat) : Nat → Nat → Nat :=
  fun t => if t = s then b else d t

/-- `fs_dirent_t` (name as NUL-free byte list; `name = []` is the free entry,
C `name[0] == 0`). -/
structure Dirent where
  name : List Nat
  size : Nat
  firstCluster : Nat

/-- `open_file_t` (fs.c 24-31). -/
structure OpenFile where
  inUse : Bool
  direntIdx : Nat
  size : Nat
  pos : Nat
  firstCluster : Nat
  flags : Nat

/-- Cached filesystem state plus the data region of the disk and the
block-device failure flags. -/
structure FsState where
  mounted : Bool
  totalClusters : Nat
  freeClusters : Nat
  fat : Nat → Nat
  rootDir : Nat → Dirent
  openFiles : Nat → OpenFile
  data : Nat → Nat → Nat
  rFail : Bool
  wFail : Bool

/-- `str_cpy` (fs.c 55-61) on a NUL-free source: copy at most `max - 1`
characters. -/
def strCpy (src : List Nat) (max : Nat) : List Nat := src.take (max - 1)

/-- Scan `fat` from index `i` for `fuel` entries, returning the first index
holding `FAT_FREE` (the loop of `alloc_cluster`, fs.c 103-109). -/
def findFree (fat : Nat → Nat) : Nat → Nat → Option Nat
  | _, 0 => none
  | i, fuel + 1 => if fat i = FAT_FREE then some i else findFree fat (i + 1) fuel

/-- `alloc_cluster` (fs.c 102-111): scan clusters `1 .. total_clusters - 1`,
mark the first free one `FAT_EOF` and decrement the free count. -/
def allocCluster (st : FsState) : Option (Nat × FsState) :=
  match findFree st.fat 1 (st.totalClusters - 1) with
  | none => none
  | some i => some (i, { st with fat := upd st.fat i FAT_EOF,
                                 freeClusters := st.freeClusters - 1 })

/-- `free_cluster_chain` (fs.c 114-121), fueled.  Each visited index is set to
`FAT_FREE`, and a revisited index then sends `start` to `0`, which stops the
loop: the C loop runs at most `2 * 2048` iterations, so fuel `8192` is exact. -/
def freeChain : FsState → Nat → Nat → FsState
  | st, _, 0 => st
  | st, start, fuel + 1 =>
    if start ≠ FAT_EOF ∧ start ≠ FAT_FREE ∧ start < 2048 then
      freeChain { st with fat := upd st.fat start FAT_FREE,
                          freeClusters := st.freeClusters + 1 } (st.fat start) fuel
    else st

/-- `find_file` (fs.c 124-131). -/
def findFile (st : FsState) (path : List Nat) : Option Nat :=
  (List.range FS_MAX_FILES).find?
    (fun i => decide ((st.rootDir i).name ≠ [] ∧ (st.rootDir i).name = path))

/-- `find_free_dirent` (fs.c 134-141). -/
def findFreeDirent (st : FsState) : Option Nat :=
  (List.range FS_MAX_FILES).find? (fun i => decide ((st.rootDir i).name = []))

/-- The free-descriptor scan of `fs_open` (fs.c 237-244). -/
def findFreeFd (st : FsState) : Option Nat :=
  (List.range FS_MAX_OPEN).find? (fun i => !(st.openFiles i).inUse)

/-- The descriptor setup at the end of `fs_open` (fs.c 280-293). -/
def openSetup (st : FsState) (fd idx flags : Nat) : FsState :=
  { st with
      openFiles :=
        upd st.openFiles fd
          ({ inUse := true, direntIdx := idx, size := (st.rootDir idx).size,
             pos := if flags &&& FS_O_APPEND ≠ 0 then (st.rootDir idx).size else 0,
             firstCluster := (st.rootDir idx).firstCluster, flags := flags }) }

/-- `fs_format` (fs.c 176-227) for a disk of `cap` sectors whose data region
initially holds `d0`.  `none` models the `-1` returns (disk too small, or a
metadata flush failing with `wFail`); the partially updated cached state on
those paths is never observed because `fs_is_mounted` is not set. -/
def fsFormat (cap : Nat) (d0 : Nat → Nat → Nat) (rFail wFail : Bool) :
    Option FsState :=
  if cap < 32 then none
  else if wFail then none
  else
    some { mounted := true,
           totalClusters := min ((cap - DATA_START_SECTOR) / FS_SECTORS_PER_CLUSTER) 2048,
           freeClusters := min ((cap - DATA_START_SECTOR) / FS_SECTORS_PER_CLUSTER) 2048 - 1,
           fat := fun i => if i = 0 then FAT_EOF else FAT_FREE,
           rootDir := fun _ => ⟨[], 0, 0⟩,
           openFiles := fun _ => ⟨false, 0, 0, 0, 0, 0⟩,
           data := d0, rFail := rFail, wFail := wFail }

/-- `fs_open` (fs.c 229-294).  `none` models the `-1` returns; on those paths
the only cached mutation is the create branch's reverted directory entry
(fs.c 265-268), whose surviving `size`/`first_cluster` fields are never read
while `name[0] = 0`. -/
def fsOpen (st : FsState) (path : List Nat) (flags : Nat) :
    Option (Nat × FsState) :=
  if st.mounted = false then none
  else
    match (if path.headD 0 = 47 then path.drop 1 else path) with
    | [] => none
    | p0 :: prest =>
      match findFreeFd st with
      | none => none
      | some fd =>
        match findFile st (p0 :: prest) with
        | none =>
          if flags &&& FS_O_CREATE = 0 then none
          else
            match findFreeDirent st with
            | none => none
            | some idx =>
              if st.wFail then none
              else
                some (fd, openSetup
                  ({ st with
                      rootDir :=
                        upd st.rootDir idx
                          ⟨strCpy (p0 :: prest) FS_MAX_FILENAME, 0, FAT_EOF⟩ })
                  fd idx flags)
        | some idx =>
          if flags &&& FS_O_TRUNC ≠ 0 ∧ (st.rootDir idx).firstCluster ≠ FAT_EOF then
            some (fd, openSetup
              (let st1 := freeChain st (st.rootDir idx).firstCluster 8192
               { st1 with
                   rootDir :=
                     upd st1.rootDir idx
                       ({ st1.rootDir idx with firstCluster := FAT_EOF, size := 0 }) })
              fd idx flags)
          else some (fd, openSetup st fd idx flags)

/-- `fs_close` (fs.c 296-302). -/
def fsClose (st : FsState) (fd : Nat) : Option FsState :=
  if FS_MAX_OPEN ≤ fd then none
  else if (st.openFiles fd).inUse = false then none
  else some { st with
                openFiles :=
                  upd st.openFiles fd ({ st.openFiles fd with inUse := false }) }

/-- `fs_size` (fs.c 468-472). -/
def fsSize (st : FsState) (fd : Nat) : Int :=
  if FS_MAX_OPEN ≤ fd then -1
  else if (st.openFiles fd).inUse = false then -1
  else ((st.openFiles fd).size : Int)

/-- `cluster_to_sector cluster + cluster_offset / 512` (fs.c 97-99, 328-330,
398-401). -/
def sectorOf (cluster pos : Nat) : Nat :=
  DATA_START_SECTOR + cluster * FS_SECTORS_PER_CLUSTER + pos % FS_CLUSTER_SIZE / 512

/-- `sector_offset = cluster_offset % 512`. -/
def soOf (pos : Nat) : Nat := pos % FS_CLUSTER_SIZE % 512

/-- `to_copy = 512 - sector_offset`, capped by the remaining length
(fs.c 337-338, 412-413). -/
def toCopyW (pos len : Nat) : Nat :=
  if 512 - soOf pos > len then len else 512 - soOf pos

/-- `return bytes_written > 0 ? bytes_written : -1`. -/
def shortRet (bw : Nat) : Int := if 0 < bw then (bw : Int) else -1

/-- The cluster-walk loop of `fs_read` (fs.c 319-321): step `n` times through
the FAT, stopping early at `FAT_EOF`. -/
def walk (fat : Nat → Nat) : Nat → Nat → Nat
  | 0, c => c
  | n + 1, c => if c = FAT_EOF then c else walk fat n (fat c)

/-- The navigation loop of `fs_write` (fs.c 381-396): step `n` times through
the FAT from `cluster`, extending the chain with a fresh cluster whenever the
current entry is `FAT_EOF`.  Returns `none` (with the state mutated so far)
when `alloc_cluster` fails. -/
def navigate : Nat → FsState → Nat → Option Nat × FsState
  | 0, st, cluster => (some cluster, st)
  | n + 1, st, cluster =>
    if st.fat cluster = FAT_EOF then
      match allocCluster st with
      | none => (none, st)
      | some (nc, st1) =>
        navigate n { st1 with fat := upd st1.fat cluster nc }
          ((upd st1.fat cluster nc) cluster)
    else navigate n st (st.fat cluster)

/-- The first-cluster allocation of `fs_write` (fs.c 370-379): an empty file
gets a fresh first cluster, recorded in the descriptor and the directory. -/
def firstClusterStep (st : FsState) (f : OpenFile) (idx : Nat) :
    Option (Nat × FsState × OpenFile) :=
  if f.firstCluster = FAT_EOF then
    match allocCluster st with
    | none => none
    | some (nc, st1) =>
      some (nc,
        { st1 with
            rootDir :=
              upd st1.rootDir idx ({ st1.rootDir idx with firstCluster := nc }) },
        { f with firstCluster := nc })
  else some (f.firstCluster, st, f)

/-- The 512-byte sector buffer before the `memcpy` (fs.c 403-409): a
read-modify-write load of the current sector when the write is partial
(zeroed if the load fails), and otherwise stale contents that the full-sector
`memcpy` is about to overwrite entirely (modelled as zeros; when the branch is
not taken, `sector_offset = 0` and `len ≥ 512`, so `to_copy = 512` and every
byte of the buffer is replaced before `blk_write`).  `rf`/`d` are the
`rFail` flag and data region of the current state. -/
def rmwBuf (rf : Bool) (d : Nat → Nat → Nat) (sector so len : Nat) : Nat → Nat :=
  if so ≠ 0 ∨ len < 512 then (if rf then fun _ => 0 else d sector)
  else fun _ => 0

/-- `memcpy(sector_buf + sector_offset, in, to_copy)` with `in` pointing at
byte `off` of the source buffer. -/
def patchBuf (buf : Nat → Nat) (so : Nat) (inB : List Nat) (off toCopy : Nat) :
    Nat → Nat :=
  fun o => if so ≤ o ∧ o < so + toCopy then inB.getD (off + (o - so)) 0 else buf o

/-- The tail of one `fs_write` loop iteration (fs.c 398-431): sector write,
position/byte-count advance and the size update.  Returns the new
`(state, descriptor, remaining, written)`. -/
def writeStep (st : FsState) (f : OpenFile) (idx : Nat) (inB : List Nat)
    (len bw cluster : Nat) : FsState × OpenFile × Nat × Nat :=
  if (f.pos + toCopyW f.pos len) % 4294967296 > f.size then
    ({ st with
        data := upd2 st.data (sectorOf cluster f.pos)
          (patchBuf (rmwBuf st.rFail st.data (sectorOf cluster f.pos) (soOf f.pos) len)
            (soOf f.pos) inB bw (toCopyW f.pos len)),
        rootDir :=
            upd st.rootDir idx
              ({ st.rootDir idx with size := (f.pos + toCopyW f.pos len) % 4294967296 }) },
     { f with pos := (f.pos + toCopyW f.pos len) % 4294967296,
              size := (f.pos + toCopyW f.pos len) % 4294967296 },
     len - toCopyW f.pos len, bw + toCopyW f.pos len)
  else
    ({ st with
        data := upd2 st.data (sectorOf cluster f.pos)
          (patchBuf (rmwBuf st.rFail st.data (sectorOf cluster f.pos) (soOf f.pos) len)
            (soOf f.pos) inB bw (toCopyW f.pos len)) },
     { f with pos := (f.pos + toCopyW f.pos len) % 4294967296 },
     len - toCopyW f.pos len, bw + toCopyW f.pos len)

/-- The `while (len > 0)` loop of `fs_write` (fs.c 361-432).  The metadata
flushes on the allocation-failure path (fs.c 388-390) are identities on the
modelled data region. -/
def fsWriteLoop : Nat → FsState → OpenFile → Nat → List Nat → Nat → Nat →
    Int × FsState × OpenFile
  | _, st, f, _, _, 0, bw => ((bw : Int), st, f)
  | 0, st, f, _, _, _ + 1, bw => ((bw : Int), st, f)
  | fuel + 1, st, f, idx, inB, len + 1, bw =>
    match firstClusterStep st f idx with
    | none => (shortRet bw, st, f)
    | some (c0, st1, f1) =>
      match navigate (f1.pos / FS_CLUSTER_SIZE) st1 c0 with
      | (none, st2) => (shortRet bw, st2, f1)
      | (some cluster, st2) =>
        if st2.wFail then (shortRet bw, st2, f1)
        else
          match writeStep st2 f1 idx inB (len + 1) bw cluster with
          | (st3, f2, len2, bw2) => fsWriteLoop fuel st3 f2 idx inB len2 bw2

/-- `fs_write` (fs.c 351-440).  The final metadata flushes (fs.c 435-437) are
identities on the modelled data region.  A negative `fd` is impossible for a
`Nat` index. -/
def fsWrite (st : FsState) (fd : Nat) (inB : List Nat) (len : Nat) :
    Int × FsState :=
  if FS_MAX_OPEN ≤ fd then (-1, st)
  else if (st.openFiles fd).inUse = false then (-1, st)
  else if (st.openFiles fd).flags &&& FS_O_WRITE = 0 then (-1, st)
  else
    match fsWriteLoop len st (st.openFiles fd) (st.openFiles fd).direntIdx inB len 0 with
    | (r, st', f') => (r, { st' with openFiles := upd st'.openFiles fd f' })

/-- `to_copy` of `fs_read` (fs.c 337-339): additionally capped at the end of
the file. -/
def toCopyR (pos size len : Nat) : Nat :=
  if (pos + toCopyW pos len) % 4294967296 > size then size - pos
  else toCopyW pos len

/-- The `while (len > 0 && f->pos < f->size)` loop of `fs_read`
(fs.c 313-346), accumulating the bytes copied out. -/
def fsReadLoop : Nat → FsState → OpenFile → List Nat → Nat → Nat →
    Int × List Nat × OpenFile
  | 0, _, f, acc, _, bw => ((bw : Int), acc, f)
  | _ + 1, _, f, acc, 0, bw => ((bw : Int), acc, f)
  | fuel + 1, st, f, acc, len + 1, bw =>
    if f.size ≤ f.pos then ((bw : Int), acc, f)
    else if walk st.fat (f.pos / FS_CLUSTER_SIZE) f.firstCluster = FAT_EOF ∨
            walk st.fat (f.pos / FS_CLUSTER_SIZE) f.firstCluster = FAT_FREE then
      ((bw : Int), acc, f)
    else if st.rFail then (shortRet bw, acc, f)
    else
      fsReadLoop fuel st
        { f with pos := (f.pos + toCopyR f.pos f.size (len + 1)) % 4294967296 }
        (acc ++ (List.range (toCopyR f.pos f.size (len + 1))).map
          (fun j => st.data
            (sectorOf (walk st.fat (f.pos / FS_CLUSTER_SIZE) f.firstCluster) f.pos)
            (soOf f.pos + j)))
        (len + 1 - toCopyR f.pos f.size (len + 1))
        (bw + toCopyR f.pos f.size (len + 1))

/-- `fs_read` (fs.c 304-349), returning the result, the bytes copied out and
the final state. -/
def fsRead (st : FsState) (fd : Nat) (len : Nat) : Int × List Nat × FsState :=
  if FS_MAX_OPEN ≤ fd then (-1, [], st)
  else if (st.openFiles fd).inUse = false then (-1, [], st)
  else if (st.openFiles fd).flags &&& FS_O_READ = 0 then (-1, [], st)
  else
    match fsReadLoop len st (st.openFiles fd) [] len 0 with
    | (r, out, f') => (r, out, { st with openFiles := upd st.openFiles fd f' })

/-- The round-trip scenario of the claim: format, open for writing with
create, write `B`, close, reopen for reading, read `|B|` bytes, take the size.
Returns `(write result, read result, bytes read, size)`. -/
def roundTrip (cap : Nat) (d0 : Nat → Nat → Nat) (name B : List Nat) :
    Option (Int × Int × List Nat × Int) :=
  match fsFormat cap d0 false false with
  | none => none
  | some st0 =>
    match fsOpen st0 name (FS_O_WRITE ||| FS_O_CREATE) with
    | none => none
    | some (fd, st1) =>
      match fsWrite st1 fd B B.length with
      | (w, st2) =>
        match fsClose st2 fd with
        | none => none
        | some st3 =>
          match fsOpen st3 name FS_O_READ with
          | none => none
          | some (fd2, st4) =>
            match fsRead st4 fd2 B.length with
            | (r, out, st5) => some (w, r, out, fsSize st5 fd2)

/-! ### Reachable-state descriptions and basic lemmas -/

/-- The FAT holding the single chain `1 → 2 → ⋯ → m → EOF` over an otherwise
free table (cluster 0 reserved), as produced by writing a fresh file. -/
def chainFat (m : Nat) : Nat → Nat := fun i =>
  if i = 0 then FAT_EOF else if i < m then i + 1 else if i = m then FAT_EOF
  else FAT_FREE

/-- Number of clusters needed for a `k`-byte file. -/
def numClusters (k : Nat) : Nat := (k + 2047) / 2048

/-- First cluster of a fresh `k`-byte file. -/
def clusterHead (k : Nat) : Nat := if k = 0 then FAT_EOF else 1

lemma upd_same {α : Type} (f : Nat → α) (i : Nat) (v : α) : upd f i v i = v := by
  simp [upd]

lemma upd_ne {α : Type} (f : Nat → α) (i j : Nat) (v : α) (h : j ≠ i) :
    upd f i v j = f j := by
  simp [upd, h]

lemma upd_upd_same {α : Type} (f : Nat → α) (i : Nat) (v w : α) :
    upd (upd f i v) i w = upd f i w := by
  funext j
  by_cases h : j = i <;> simp [upd, h]

lemma upd_self {α : Type} (f : Nat → α) (i : Nat) : upd f i (f i) = f := by
  funext j
  by_cases h : j = i <;> simp [upd, h]

lemma toCopyW_pos (pos L : Nat) (hL : 0 < L) : 0 < toCopyW pos L := by
  unfold toCopyW soOf
  split <;> omega

lemma toCopyW_le (pos L : Nat) : toCopyW pos L ≤ L := by
  unfold toCopyW
  split <;> omega

lemma toCopyW_le_512 (pos L : Nat) : toCopyW pos L ≤ 512 := by
  unfold toCopyW soOf
  split <;> omega

lemma findFree_spec (f : Nat → Nat) :
    ∀ fuel i j, i ≤ j → j < i + fuel → f j = FAT_FREE →
      (∀ t, i ≤ t → t < j → f t ≠ FAT_FREE) → findFree f i fuel = some j := by
  intro fuel
  induction fuel with
  | zero => intro i j h1 h2 _ _; omega
  | succ n ih =>
    intro i j h1 h2 h3 h4
    unfold findFree
    by_cases hi : f i = FAT_FREE
    · have : i = j := by
        by_contra hne
        exact h4 i (le_refl i) (by omega) hi
      rw [if_pos hi, this]
    · rw [if_neg hi]
      have hij : i ≠ j := fun he => hi (he ▸ h3)
      exact ih (i + 1) j (by omega) (by omega) h3 (fun t ht1 ht2 => h4 t (by omega) ht2)

lemma findFree_chainFat (m fuel : Nat) (h : m + 1 ≤ fuel) (hm : m ≤ 2047) :
    findFree (chainFat m) 1 fuel = some (m + 1) := by
  apply findFree_spec
  · omega
  · omega
  · unfold chainFat FAT_FREE
    rw [if_neg (by omega), if_neg (by omega), if_neg (by omega)]
  · intro t h1 h2
    unfold chainFat FAT_FREE FAT_EOF
    rw [if_neg (by omega)]
    split
    · omega
    · rw [if_pos (by omega)]; omega

lemma allocCluster_eq (st : FsState) (i : Nat) (st' : FsState)
    (h : allocCluster st = some (i, st')) :
    st' = { st with fat := upd st.fat i FAT_EOF,
                    freeClusters := st.freeClusters - 1 } := by
  unfold allocCluster at h
  cases hf : findFree st.fat 1 (st.totalClusters - 1) with
  | none => rw [hf] at h; exact absurd h (by simp)
  | some j =>
    rw [hf] at h
    simp only [Option.some.injEq, Prod.mk.injEq] at h
    obtain ⟨h1, h2⟩ := h
    subst h1
    exact h2.symm

lemma allocCluster_none (st : FsState)
    (h : allocCluster st = none) :
    findFree st.fat 1 (st.totalClusters - 1) = none := by
  unfold allocCluster at h
  cases hf : findFree st.fat 1 (st.totalClusters - 1) with
  | none => rfl
  | some j => rw [hf] at h; exact absurd h (by simp)

lemma navigate_none : ∀ n (st : FsState) c st',
    navigate n st c = (none, st') →
    findFree st'.fat 1 (st'.totalClusters - 1) = none := by
  intro n
  induction n with
  | zero => intro st c st' h; exact absurd h (by simp [navigate])
  | succ n ih =>
    intro st c st' h
    unfold navigate at h
    by_cases he : st.fat c = FAT_EOF
    · rw [if_pos he] at h
      cases ha : allocCluster st with
      | none =>
        rw [ha] at h
        simp only [Prod.mk.injEq] at h
        rw [← h.2]
        exact allocCluster_none st ha
      | some p =>
        rw [ha] at h
        exact ih _ _ _ h
    · rw [if_neg he] at h
      exact ih _ _ _ h

lemma navigate_preserve : ∀ n (st : FsState) c,
    (navigate n st c).2.wFail = st.wFail ∧
    (navigate n st c).2.totalClusters = st.totalClusters := by
  intro n
  induction n with
  | zero => intro st c; exact ⟨rfl, rfl⟩
  | succ n ih =>
    intro st c
    unfold navigate
    by_cases he : st.fat c = FAT_EOF
    · rw [if_pos he]
      cases ha : allocCluster st with
      | none => exact ⟨rfl, rfl⟩
      | some p =>
        obtain ⟨nc, st1⟩ := p
        have hst1 := allocCluster_eq st nc st1 ha
        subst hst1
        exact ih _ _
    · rw [if_neg he]
      exact ih st (st.fat c)

lemma firstClusterStep_none (st : FsState) (f : OpenFile) (idx : Nat)
    (h : firstClusterStep st f idx = none) :
    findFree st.fat 1 (st.totalClusters - 1) = none := by
  unfold firstClusterStep at h
  by_cases he : f.firstCluster = FAT_EOF
  · rw [if_pos he] at h
    cases ha : allocCluster st with
    | none => exact allocCluster_none st ha
    | some p => rw [ha] at h; exact absurd h (by simp)
  · rw [if_neg he] at h
    exact absurd h (by simp)

lemma firstClusterStep_preserve (st : FsState) (f : OpenFile) (idx : Nat)
    (c0 : Nat) (st1 : FsState) (f1 : OpenFile)
    (h : firstClusterStep st f idx = some (c0, st1, f1)) :
    st1.wFail = st.wFail ∧ st1.totalClusters = st.totalClusters := by
  unfold firstClusterStep at h
  by_cases he : f.firstCluster = FAT_EOF
  · rw [if_pos he] at h
    cases ha : allocCluster st with
    | none => rw [ha] at h; exact absurd h (by simp)
    | some p =>
      obtain ⟨nc, st1⟩ := p
      rw [ha] at h
      have hst1 := allocCluster_eq st nc st1 ha
      simp only [Option.some.injEq, Prod.mk.injEq] at h
      rw [← h.2.1, hst1]
      exact ⟨rfl, rfl⟩
  · rw [if_neg he] at h
    simp only [Option.some.injEq, Prod.mk.injEq] at h
    rw [← h.2.1]
    exact ⟨rfl, rfl⟩

lemma writeStep_preserve (st : FsState) (f : OpenFile) (idx : Nat)
    (inB : List Nat) (len bw cluster : Nat) :
    (writeStep st f idx inB len bw cluster).1.wFail = st.wFail ∧
    (writeStep st f idx inB len bw cluster).1.totalClusters = st.totalClusters ∧
    (writeStep st f idx inB len bw cluster).2.2.1 = len - toCopyW f.pos len ∧
    (writeStep st f idx inB len bw cluster).2.2.2 = bw + toCopyW f.pos len := by
  unfold writeStep
  split <;> exact ⟨rfl, rfl, rfl, rfl⟩

/-! ### Claim C7: `fs_write` short counts -/

/-- The `fs_write` loop either writes everything or stops short with the
final FAT holding no free cluster (given that `blk_write` succeeds). -/
lemma fsWriteLoop_full_or_alloc : ∀ fuel len (st : FsState) f idx inB bw,
    len ≤ fuel → st.wFail = false →
    (fsWriteLoop fuel st f idx inB len bw).1 = ((bw + len : Nat) : Int) ∨
    (findFree (fsWriteLoop fuel st f idx inB len bw).2.1.fat 1
        ((fsWriteLoop fuel st f idx inB len bw).2.1.totalClusters - 1) = none ∧
      (fsWriteLoop fuel st f idx inB len bw).1 < ((bw + len : Nat) : Int)) := by
  intro fuel
  induction fuel with
  | zero =>
    intro len st f idx inB bw hle _
    left
    interval_cases len
    simp [fsWriteLoop]
  | succ n ih =>
    intro len st f idx inB bw hle hw
    match len with
    | 0 => left; simp [fsWriteLoop]
    | len + 1 =>
      rw [fsWriteLoop]
      cases h1 : firstClusterStep st f idx with
      | none =>
        dsimp only
        right
        refine ⟨firstClusterStep_none st f idx h1, ?_⟩
        unfold shortRet
        split <;> omega
      | some t =>
        obtain ⟨c0, st1, f1⟩ := t
        dsimp only
        cases h2 : navigate (f1.pos / FS_CLUSTER_SIZE) st1 c0 with
        | mk oc st2 =>
          cases oc with
          | none =>
            dsimp only
            right
            refine ⟨navigate_none _ _ _ _ h2, ?_⟩
            unfold shortRet
            split <;> omega
          | some cluster =>
            dsimp only
            have hpre1 := firstClusterStep_preserve st f idx c0 st1 f1 h1
            have hpre2 := navigate_preserve (f1.pos / FS_CLUSTER_SIZE) st1 c0
            rw [h2] at hpre2
            have hw2 : st2.wFail = false := by rw [hpre2.1, hpre1.1, hw]
            rw [if_neg (by rw [hw2]; exact Bool.false_ne_true)]
            cases h3 : writeStep st2 f1 idx inB (len + 1) bw cluster with
            | mk st3 r =>
              obtain ⟨f2, len2, bw2⟩ := r
              dsimp only
              have hws := writeStep_preserve st2 f1 idx inB (len + 1) bw cluster
              rw [h3] at hws
              have hlen2 : len2 = len + 1 - toCopyW f1.pos (len + 1) := hws.2.2.1
              have hbw2 : bw2 = bw + toCopyW f1.pos (len + 1) := hws.2.2.2
              have htc := toCopyW_le f1.pos (len + 1)
              have htp := toCopyW_pos f1.pos (len + 1) (by omega)
              have hw3 : st3.wFail = false := by rw [hws.1, hw2]
              have := ih len2 st3 f2 idx inB bw2 (by omega) hw3
              have hsum : bw2 + len2 = bw + (len + 1) := by omega
              rw [hsum] at this
              exact this

/-- Concrete state used by the C7 counterexample: a mounted filesystem with
seven free clusters, one file `"a"` (empty) open for writing on descriptor 0,
and a block device whose writes fail. -/
def wfailSt : FsState :=
  { mounted := true, totalClusters := 8, freeClusters := 7,
    fat := fun i => if i = 0 then FAT_EOF else FAT_FREE,
    rootDir := upd (fun _ => ⟨[], 0, 0⟩) 0 ⟨[97], 0, FAT_EOF⟩,
    openFiles := upd (fun _ => ⟨false, 0, 0, 0, 0, 0⟩) 0 ⟨true, 0, 0, 0, FAT_EOF, 2⟩,
    data := fun _ _ => 0, rFail := false, wFail := true }

/-- The same state with a healthy block device. -/
def wokSt : FsState := { wfailSt with wFail := false }

/-- C7: for every open writable descriptor, when the block device accepts
writes (`wFail = false`), `fs_write` either returns the full requested length
or stops short with the final FAT containing no free cluster (allocation
failure); the `blk_read` path never shortens a write.  (The unamended claim
is refuted by `fs_write_blk_failure_counterexample`: with `wFail = true` the
`blk_write` path also returns a short count.) -/
theorem fs_write_short_only_on_alloc_failure (st : FsState) (fd : Nat)
    (inB : List Nat) (len : Nat)
    (hfd : fd < FS_MAX_OPEN) (huse : (st.openFiles fd).inUse = true)
    (hwr : ¬ (st.openFiles fd).flags &&& FS_O_WRITE = 0)
    (hdev : st.wFail = false) :
    (fsWrite st fd inB len).1 = (len : Int) ∨
    ((fsWrite st fd inB len).1 < (len : Int) ∧
      findFree (fsWrite st fd inB len).2.fat 1
        ((fsWrite st fd inB len).2.totalClusters - 1) = none) := by
  unfold fsWrite
  rw [if_neg (by omega : ¬ FS_MAX_OPEN ≤ fd), if_neg (by simp [huse]), if_neg hwr]
  have h := fsWriteLoop_full_or_alloc len len st (st.openFiles fd)
    (st.openFiles fd).direntIdx inB 0 (le_refl len) hdev
  cases hr : fsWriteLoop len st (st.openFiles fd) (st.openFiles fd).direntIdx inB len 0 with
  | mk r s =>
    obtain ⟨st', f'⟩ := s
    rw [hr] at h
    dsimp only at h ⊢
    simp only [Nat.zero_add] at h
    rcases h with h | h
    · left; exact h
    · right; exact ⟨h.2, h.1⟩

/-- Witness for C7 at a concrete state: descriptor 0 of `wokSt` is open for
writing and the device is healthy. -/
theorem fs_write_short_witness :
    (fsWrite wokSt 0 [42] 1).1 = (1 : Int) ∨
    ((fsWrite wokSt 0 [42] 1).1 < (1 : Int) ∧
      findFree (fsWrite wokSt 0 [42] 1).2.fat 1
        ((fsWrite wokSt 0 [42] 1).2.totalClusters - 1) = none) :=
  fs_write_short_only_on_alloc_failure wokSt 0 [42] 1 (by decide) (by decide)
    (by decide) (by decide)

/-- Counterexample to the unamended C7: on `wfailSt` (every `blk_write`
fails) a 1-byte write to the open descriptor returns `-1` even though the FAT
still has a free cluster (so cluster allocation did not fail — cluster 1 is
free and `alloc_cluster` would return it). -/
theorem fs_write_blk_failure_counterexample :
    (fsWrite wfailSt 0 [42] 1).1 = -1 ∧
    findFree wfailSt.fat 1 (wfailSt.totalClusters - 1) = some 1 := by
  exact ⟨by decide, by decide⟩

/-! ### Claim C1: write/read round trip on a fresh filesystem -/

lemma chainFat_step (m c : Nat) (h1 : 1 ≤ c) (h2 : c < m) :
    chainFat m c = c + 1 := by
  unfold chainFat
  rw [if_neg (by omega), if_pos h2]

lemma chainFat_last (m : Nat) (h : 1 ≤ m) : chainFat m m = FAT_EOF := by
  unfold chainFat
  rw [if_neg (by omega), if_neg (by omega), if_pos rfl]

lemma chainFat_alloc0 : upd (chainFat 0) 1 FAT_EOF = chainFat 1 := by
  funext j
  unfold upd chainFat FAT_EOF FAT_FREE
  split_ifs <;> omega

lemma chainFat_extend (m : Nat) (hm : 1 ≤ m) :
    upd (upd (chainFat m) (m + 1) FAT_EOF) m (m + 1) = chainFat (m + 1) := by
  funext j
  unfold upd chainFat FAT_EOF FAT_FREE
  split_ifs <;> omega

lemma allocCluster_chain (mo : Bool) (tcl fc m : Nat) (rd : Nat → Dirent)
    (ofs : Nat → OpenFile) (dat : Nat → Nat → Nat) (rf wf : Bool)
    (h1 : m + 1 ≤ tcl - 1) (hm : m ≤ 2047) :
    allocCluster ⟨mo, tcl, fc, chainFat m, rd, ofs, dat, rf, wf⟩ =
      some (m + 1, ⟨mo, tcl, fc - 1, upd (chainFat m) (m + 1) FAT_EOF,
        rd, ofs, dat, rf, wf⟩) := by
  unfold allocCluster
  dsimp only
  rw [findFree_chainFat m (tcl - 1) h1 hm]

lemma navigate_chain (m : Nat) (hm : m ≤ 2047) :
    ∀ n (st : FsState) c, st.fat = chainFat m → 1 ≤ c → c + n ≤ m →
      navigate n st c = (some (c + n), st) := by
  intro n
  induction n with
  | zero => intro st c _ _ _; rfl
  | succ n ih =>
    intro st c hf h1 h2
    unfold navigate
    rw [hf, chainFat_step m c h1 (by omega)]
    rw [if_neg (by unfold FAT_EOF; omega)]
    rw [show c + (n + 1) = c + 1 + n from by omega]
    exact ih st (c + 1) hf (by omega) (by omega)

lemma navigate_extend (m tcl : Nat) (hm1 : 1 ≤ m) (hm : m ≤ 2046)
    (htc : m + 1 ≤ tcl - 1) :
    ∀ n c (mo : Bool) (fc : Nat) (rd : Nat → Dirent) (ofs : Nat → OpenFile)
      (dat : Nat → Nat → Nat),
      1 ≤ c → c ≤ m → c + n = m + 1 →
      navigate n ⟨mo, tcl, fc, chainFat m, rd, ofs, dat, false, false⟩ c =
        (some (m + 1),
          ⟨mo, tcl, fc - 1, chainFat (m + 1), rd, ofs, dat, false, false⟩) := by
  intro n
  induction n with
  | zero => intro c mo fc rd ofs dat h1 h2 h3; omega
  | succ n ih =>
    intro c mo fc rd ofs dat h1 h2 h3
    unfold navigate
    dsimp only
    by_cases hc : c = m
    · subst hc
      have hn : n = 0 := by omega
      subst hn
      rw [chainFat_last c hm1, if_pos rfl,
        allocCluster_chain mo tcl fc c rd ofs dat false false htc (by omega)]
      dsimp only
      rw [upd_same, chainFat_extend c hm1]
      rfl
    · rw [chainFat_step m c h1 (by omega), if_neg (by unfold FAT_EOF; omega)]
      exact ih (c + 1) mo fc rd ofs dat (by omega) (by omega) (by omega)

/-- One iteration of the `fs_write` loop from a fresh-file state with the
position at a 512-byte boundary: the target cluster is reached (allocating it
when the chain must grow), the sector is written and the loop recurses with
the invariant re-established for `k + to_copy` bytes. -/
lemma fsWriteLoop_iter (tcl idx : Nat) (nm B : List Nat)
    (fuel r k : Nat) (mo : Bool) (rd : Nat → Dirent) (ofs : Nat → OpenFile)
    (dat : Nat → Nat → Nat) (flg : Nat)
    (htc2 : tcl ≤ 2048)
    (hk : k % 512 = 0)
    (hbound : k + (r + 1) ≤ (tcl - 1) * 2048)
    (hrd : rd idx = ⟨nm, k, clusterHead k⟩) :
    fsWriteLoop (fuel + 1)
        ⟨mo, tcl, tcl - 1 - numClusters k, chainFat (numClusters k), rd, ofs, dat,
          false, false⟩
        ⟨true, idx, k, k, clusterHead k, flg⟩ idx B (r + 1) k =
      fsWriteLoop fuel
        ⟨mo, tcl, tcl - 1 - (k / 2048 + 1), chainFat (k / 2048 + 1),
          upd rd idx ⟨nm, k + toCopyW k (r + 1), 1⟩, ofs,
          upd2 dat (sectorOf (k / 2048 + 1) k)
            (patchBuf (rmwBuf false dat (sectorOf (k / 2048 + 1) k) (soOf k) (r + 1))
              (soOf k) B k (toCopyW k (r + 1))),
          false, false⟩
        ⟨true, idx, k + toCopyW k (r + 1), k + toCopyW k (r + 1), 1, flg⟩ idx B
        (r + 1 - toCopyW k (r + 1)) (k + toCopyW k (r + 1)) := by
  have htcl2 : 2 ≤ tcl := by omega
  have htle : toCopyW k (r + 1) ≤ r + 1 := toCopyW_le k (r + 1)
  have htp : 0 < toCopyW k (r + 1) := toCopyW_pos k (r + 1) (by omega)
  have ht512 : toCopyW k (r + 1) ≤ 512 := toCopyW_le_512 k (r + 1)
  have hmod : (k + toCopyW k (r + 1)) % 4294967296 = k + toCopyW k (r + 1) := by
    apply Nat.mod_eq_of_lt
    omega
  simp only [fsWriteLoop]
  by_cases hk0 : k = 0
  · subst hk0
    have hnc0 : numClusters 0 = 0 := rfl
    rw [hnc0]
    unfold firstClusterStep
    dsimp only
    rw [if_pos (by decide : clusterHead 0 = FAT_EOF)]
    rw [allocCluster_chain mo tcl (tcl - 1 - 0) 0 rd ofs dat false false
      (by omega) (by omega)]
    dsimp only
    rw [hrd]
    dsimp only
    rw [chainFat_alloc0]
    rw [show (0 : Nat) / FS_CLUSTER_SIZE = 0 from rfl]
    simp only [navigate]
    dsimp only
    rw [if_neg (by simp : ¬ (false = true))]
    unfold writeStep
    dsimp only
    rw [hmod, if_pos (by omega : 0 + toCopyW 0 (r + 1) > 0)]
    rw [upd_upd_same, upd_same]
    dsimp only
    norm_num
  · have hch : clusterHead k = 1 := by unfold clusterHead; rw [if_neg hk0]
    rw [hch]
    unfold firstClusterStep
    dsimp only
    rw [if_neg (by decide : ¬ (1 : Nat) = FAT_EOF)]
    dsimp only
    by_cases hk2 : k % 2048 = 0
    · have hm : numClusters k = k / 2048 := by unfold numClusters; omega
      have hm1 : 1 ≤ k / 2048 := by omega
      have hmtc : k / 2048 + 1 ≤ tcl - 1 := by omega
      rw [hm]
      rw [show k / FS_CLUSTER_SIZE = k / 2048 from rfl]
      rw [navigate_extend (k / 2048) tcl hm1 (by omega) hmtc (k / 2048) 1 mo
        (tcl - 1 - k / 2048) rd ofs dat (by omega) (by omega) (by omega)]
      dsimp only
      rw [if_neg (by simp : ¬ (false = true))]
      rw [show tcl - 1 - k / 2048 - 1 = tcl - 1 - (k / 2048 + 1) from by omega]
      unfold writeStep
      dsimp only
      rw [hmod, if_pos (by omega : k + toCopyW k (r + 1) > k), hrd]
      dsimp only
      rw [hch]
    · have hm : numClusters k = k / 2048 + 1 := by unfold numClusters; omega
      have hmtc : k / 2048 + 1 ≤ tcl - 1 := by omega
      rw [hm]
      rw [show k / FS_CLUSTER_SIZE = k / 2048 from rfl]
      rw [show k / 2048 + 1 = 1 + k / 2048 from by omega]
      rw [navigate_chain (1 + k / 2048) (by omega) (k / 2048)
        ⟨mo, tcl, tcl - 1 - (1 + k / 2048), chainFat (1 + k / 2048), rd, ofs, dat,
          false, false⟩ 1 rfl (by omega) (by omega)]
      dsimp only
      rw [if_neg (by simp : ¬ (false = true))]
      unfold writeStep
      dsimp only
      rw [hmod, if_pos (by omega : k + toCopyW k (r + 1) > k), hrd]
      dsimp only
      rw [hch]

lemma toCopyW_aligned_cases (pos L : Nat) (hp : pos % 512 = 0) :
    toCopyW pos L = 512 ∨ toCopyW pos L = L := by
  unfold toCopyW soOf FS_CLUSTER_SIZE
  split_ifs <;> omega

/-- Running the `fs_write` loop from a fresh `k`-byte file writes all `rem`
requested bytes, extends the cluster chain and directory entry accordingly,
and stores every written byte at sector `17 + i / 512`, offset `i % 512`. -/
lemma fsWriteLoop_roundtrip (tcl idx : Nat) (nm B : List Nat)
    (htc2 : tcl ≤ 2048) :
    ∀ fuel rem k (mo : Bool) (rd : Nat → Dirent) (ofs : Nat → OpenFile)
      (dat : Nat → Nat → Nat) (flg : Nat),
      rem ≤ fuel →
      k + rem ≤ (tcl - 1) * 2048 →
      (rem ≠ 0 → k % 512 = 0) →
      rd idx = ⟨nm, k, clusterHead k⟩ →
      (∀ i, i < k → dat (17 + i / 512) (i % 512) = B.getD i 0) →
      ∃ dat2 : Nat → Nat → Nat,
        fsWriteLoop fuel
            ⟨mo, tcl, tcl - 1 - numClusters k, chainFat (numClusters k), rd, ofs,
              dat, false, false⟩
            ⟨true, idx, k, k, clusterHead k, flg⟩ idx B rem k =
          (((k + rem : Nat) : Int),
            ⟨mo, tcl, tcl - 1 - numClusters (k + rem), chainFat (numClusters (k + rem)),
              upd rd idx ⟨nm, k + rem, clusterHead (k + rem)⟩, ofs, dat2, false, false⟩,
            ⟨true, idx, k + rem, k + rem, clusterHead (k + rem), flg⟩) ∧
        (∀ i, i < k + rem → dat2 (17 + i / 512) (i % 512) = B.getD i 0) := by
  intro fuel
  induction fuel with
  | zero =>
    intro rem k mo rd ofs dat flg hle hbound hal hrd hdat
    have h0 : rem = 0 := by omega
    subst h0
    refine ⟨dat, ?_, fun i hi => hdat i (by omega)⟩
    simp only [fsWriteLoop, Nat.add_zero]
    rw [← hrd, upd_self]
  | succ n ih =>
    intro rem k mo rd ofs dat flg hle hbound hal hrd hdat
    by_cases h0 : rem = 0
    · subst h0
      refine ⟨dat, ?_, fun i hi => hdat i (by omega)⟩
      simp only [fsWriteLoop, Nat.add_zero]
      rw [← hrd, upd_self]
    · obtain ⟨r, rfl⟩ : ∃ r, rem = r + 1 := ⟨rem - 1, by omega⟩
      have hk512 : k % 512 = 0 := hal (by omega)
      have htle : toCopyW k (r + 1) ≤ r + 1 := toCopyW_le k (r + 1)
      have htp : 0 < toCopyW k (r + 1) := toCopyW_pos k (r + 1) (by omega)
      have ht512 : toCopyW k (r + 1) ≤ 512 := toCopyW_le_512 k (r + 1)
      have htcc := toCopyW_aligned_cases k (r + 1) hk512
      rw [fsWriteLoop_iter tcl idx nm B n r k mo rd ofs dat flg htc2 hk512
        hbound hrd]
      have hnc : numClusters (k + toCopyW k (r + 1)) = k / 2048 + 1 := by
        unfold numClusters
        omega
      have hso : soOf k = 0 := by unfold soOf FS_CLUSTER_SIZE; omega
      have hS : sectorOf (k / 2048 + 1) k = 17 + k / 512 := by
        unfold sectorOf FS_CLUSTER_SIZE DATA_START_SECTOR FS_SECTORS_PER_CLUSTER
        omega
      have hinv : ∀ i, i < k + toCopyW k (r + 1) →
          (upd2 dat (sectorOf (k / 2048 + 1) k)
            (patchBuf (rmwBuf false dat (sectorOf (k / 2048 + 1) k) (soOf k) (r + 1))
              (soOf k) B k (toCopyW k (r + 1)))) (17 + i / 512) (i % 512) =
            B.getD i 0 := by
        intro i hi
        by_cases hik : i < k
        · have hne : ¬ 17 + i / 512 = sectorOf (k / 2048 + 1) k := by
            rw [hS]
            omega
          unfold upd2
          rw [if_neg hne]
          exact hdat i hik
        · have hsec : 17 + i / 512 = sectorOf (k / 2048 + 1) k := by
            rw [hS]
            congr 1
            omega
          unfold upd2
          rw [if_pos hsec]
          unfold patchBuf
          rw [hso, if_pos (by omega : 0 ≤ i % 512 ∧ i % 512 < 0 + toCopyW k (r + 1))]
          rw [show k + (i % 512 - 0) = i from by omega]
      obtain ⟨dat2, heq, hdat2⟩ := ih (r + 1 - toCopyW k (r + 1))
        (k + toCopyW k (r + 1)) mo
        (upd rd idx ⟨nm, k + toCopyW k (r + 1),
          clusterHead (k + toCopyW k (r + 1))⟩) ofs
        (upd2 dat (sectorOf (k / 2048 + 1) k)
          (patchBuf (rmwBuf false dat (sectorOf (k / 2048 + 1) k) (soOf k) (r + 1))
            (soOf k) B k (toCopyW k (r + 1)))) flg
        (by omega) (by omega) (by intro hr2; omega)
        (upd_same rd idx _)
        hinv
      have hch2 : clusterHead (k + toCopyW k (r + 1)) = 1 := by
        unfold clusterHead
        rw [if_neg (by omega)]
      have harith : k + toCopyW k (r + 1) + (r + 1 - toCopyW k (r + 1)) = k + (r + 1) := by
        omega
      rw [hch2, harith, hnc, upd_upd_same] at heq
      refine ⟨dat2, heq, ?_⟩
      intro i hi
      exact hdat2 i (by omega)

lemma chainFat_zero :
    (fun i => if i = 0 then FAT_EOF else FAT_FREE) = chainFat 0 := by
  funext j
  unfold chainFat FAT_EOF FAT_FREE
  split_ifs <;> omega

lemma walk_chain (m : Nat) (hm : m ≤ 2047) :
    ∀ n c, 1 ≤ c → c + n ≤ m → walk (chainFat m) n c = c + n := by
  intro n
  induction n with
  | zero => intro c _ _; rfl
  | succ n ih =>
    intro c h1 h2
    unfold walk
    rw [if_neg (by unfold FAT_EOF; omega), chainFat_step m c h1 (by omega)]
    rw [show c + (n + 1) = c + 1 + n from by omega]
    exact ih (c + 1) (by omega) (by omega)

lemma getD_range_map (l : List Nat) :
    (List.range l.length).map (fun j => l.getD j 0) = l := by
  induction l with
  | nil => rfl
  | cons a t ih =>
    simp only [List.length_cons, List.range_succ_eq_map, List.map_cons,
      List.map_map, List.getD_cons_zero, Function.comp_def, List.getD_cons_succ]
    rw [ih]

/-- Running the `fs_read` loop over the file laid out by
`fsWriteLoop_roundtrip` returns all remaining bytes of the file. -/
lemma fsReadLoop_roundtrip (L idx flg : Nat) (B : List Nat) (mo : Bool)
    (tcl fc : Nat) (rd : Nat → Dirent) (ofs : Nat → OpenFile)
    (dat : Nat → Nat → Nat)
    (hL : L ≤ 2047 * 2048)
    (hdat : ∀ i, i < L → dat (17 + i / 512) (i % 512) = B.getD i 0) :
    ∀ fuel rem k (acc : List Nat),
      rem ≤ fuel → k + rem = L → (rem ≠ 0 → k % 512 = 0) →
      fsReadLoop fuel
          ⟨mo, tcl, fc, chainFat (numClusters L), rd, ofs, dat, false, false⟩
          ⟨true, idx, L, k, clusterHead L, flg⟩ acc rem k =
        (((k + rem : Nat) : Int),
          acc ++ (List.range rem).map (fun j => B.getD (k + j) 0),
          ⟨true, idx, L, k + rem, clusterHead L, flg⟩) := by
  intro fuel
  induction fuel with
  | zero =>
    intro rem k acc hle hkr _
    have h0 : rem = 0 := by omega
    subst h0
    simp only [fsReadLoop, Nat.add_zero, List.range_zero, List.map_nil,
      List.append_nil]
  | succ n ih =>
    intro rem k acc hle hkr hal
    by_cases h0 : rem = 0
    · subst h0
      simp only [fsReadLoop, Nat.add_zero, List.range_zero, List.map_nil,
        List.append_nil]
    · obtain ⟨r, rfl⟩ : ∃ r, rem = r + 1 := ⟨rem - 1, by omega⟩
      have hk512 : k % 512 = 0 := hal (by omega)
      have hkL : k < L := by omega
      have hch : clusterHead L = 1 := by unfold clusterHead; rw [if_neg (by omega)]
      have hm47 : numClusters L ≤ 2047 := by unfold numClusters; omega
      have htle : toCopyW k (r + 1) ≤ r + 1 := toCopyW_le k (r + 1)
      have htp : 0 < toCopyW k (r + 1) := toCopyW_pos k (r + 1) (by omega)
      have ht512 : toCopyW k (r + 1) ≤ 512 := toCopyW_le_512 k (r + 1)
      have htcc := toCopyW_aligned_cases k (r + 1) hk512
      have hwalkb : 1 + k / 2048 ≤ numClusters L := by unfold numClusters; omega
      simp only [fsReadLoop]
      rw [if_neg (by omega : ¬ L ≤ k)]
      rw [hch, show k / FS_CLUSTER_SIZE = k / 2048 from rfl,
        walk_chain (numClusters L) hm47 (k / 2048) 1 (by omega) hwalkb]
      rw [if_neg (by unfold FAT_EOF FAT_FREE; omega)]
      rw [if_neg (by simp : ¬ (false = true))]
      have htcr : toCopyR k L (r + 1) = toCopyW k (r + 1) := by
        unfold toCopyR
        rw [Nat.mod_eq_of_lt (by omega), if_neg (by omega)]
      rw [htcr, Nat.mod_eq_of_lt (by omega)]
      have hso : soOf k = 0 := by unfold soOf FS_CLUSTER_SIZE; omega
      have hS : sectorOf (1 + k / 2048) k = 17 + k / 512 := by
        unfold sectorOf FS_CLUSTER_SIZE DATA_START_SECTOR FS_SECTORS_PER_CLUSTER
        omega
      have hchunk :
          (List.range (toCopyW k (r + 1))).map
              (fun j => dat (sectorOf (1 + k / 2048) k) (soOf k + j)) =
            (List.range (toCopyW k (r + 1))).map (fun j => B.getD (k + j) 0) := by
        apply List.map_congr_left
        intro j hj
        rw [List.mem_range] at hj
        rw [hS, hso, Nat.zero_add]
        have hv := hdat (k + j) (by omega)
        rw [show (k + j) / 512 = k / 512 from by omega,
          show (k + j) % 512 = j from by omega] at hv
        exact hv
      rw [hchunk]
      have hrec := ih (r + 1 - toCopyW k (r + 1)) (k + toCopyW k (r + 1))
        (acc ++ (List.range (toCopyW k (r + 1))).map (fun j => B.getD (k + j) 0))
        (by omega) (by omega) (by intro h2; omega)
      rw [hch] at hrec
      rw [hrec]
      have harith : k + toCopyW k (r + 1) + (r + 1 - toCopyW k (r + 1)) =
          k + (r + 1) := by omega
      rw [harith]
      have hsplit : (List.range (r + 1)).map (fun j => B.getD (k + j) 0) =
          (List.range (toCopyW k (r + 1))).map (fun j => B.getD (k + j) 0) ++
            (List.range (r + 1 - toCopyW k (r + 1))).map
              (fun j => B.getD (k + toCopyW k (r + 1) + j) 0) := by
        conv_lhs =>
          rw [show r + 1 = toCopyW k (r + 1) + (r + 1 - toCopyW k (r + 1)) from
            by omega]
        rw [List.range_add, List.map_append, List.map_map]
        refine congrArg _ (List.map_congr_left ?_)
        intro j _
        simp only [Function.comp_apply]
        rw [Nat.add_assoc]
      rw [hsplit, List.append_assoc]

lemma findFreeFd_zero (st : FsState) (h : (st.openFiles 0).inUse = false) :
    findFreeFd st = some 0 := by
  unfold findFreeFd FS_MAX_OPEN
  rw [show List.range 8 = 0 :: (List.range 7).map Nat.succ from
    List.range_succ_eq_map 7]
  exact List.find?_cons_of_pos _ (by rw [h]; rfl)

lemma findFile_empty (st : FsState) (path : List Nat)
    (h : ∀ i, i < 64 → (st.rootDir i).name = []) : findFile st path = none := by
  unfold findFile
  apply List.find?_eq_none.mpr
  intro i hi
  rw [List.mem_range] at hi
  simp [h i hi]

lemma findFile_at_zero (st : FsState) (path : List Nat)
    (h1 : (st.rootDir 0).name = path) (h2 : path ≠ []) :
    findFile st path = some 0 := by
  unfold findFile FS_MAX_FILES
  rw [show List.range 64 = 0 :: (List.range 63).map Nat.succ from
    List.range_succ_eq_map 63]
  exact List.find?_cons_of_pos _ (by simp [h1, h2])

lemma findFreeDirent_zero (st : FsState) (h : (st.rootDir 0).name = []) :
    findFreeDirent st = some 0 := by
  unfold findFreeDirent FS_MAX_FILES
  rw [show List.range 64 = 0 :: (List.range 63).map Nat.succ from
    List.range_succ_eq_map 63]
  exact List.find?_cons_of_pos _ (by simp [h])

/-- `fs_open` on a mounted volume with no files and no open descriptors,
creating a fresh file on descriptor 0 and directory slot 0. -/
lemma fsOpen_create (st : FsState) (p0 : Nat) (prest : List Nat) (flags : Nat)
    (hm : st.mounted = true)
    (hw : st.wFail = false)
    (hhead : ¬ p0 = 47)
    (hfd : (st.openFiles 0).inUse = false)
    (hnofile : ∀ i, i < 64 → (st.rootDir i).name = [])
    (hcreate : ¬ flags &&& FS_O_CREATE = 0)
    (hnoapp : flags &&& FS_O_APPEND = 0)
    (hlen : (p0 :: prest).length ≤ 19) :
    fsOpen st (p0 :: prest) flags =
      some (0, { st with
        rootDir :=
          upd st.rootDir 0 ⟨p0 :: prest, 0, FAT_EOF⟩,
        openFiles :=
          upd st.openFiles 0 ⟨true, 0, 0, 0, FAT_EOF, flags⟩ }) := by
  unfold fsOpen
  rw [if_neg (show ¬ (st.mounted = false) from by rw [hm]; simp)]
  rw [show (p0 :: prest).headD 0 = p0 from rfl]
  rw [if_neg hhead]
  dsimp only
  rw [findFreeFd_zero st hfd]
  dsimp only
  rw [findFile_empty st _ hnofile]
  dsimp only
  rw [if_neg hcreate, findFreeDirent_zero st (hnofile 0 (by omega))]
  dsimp only
  rw [if_neg (show ¬ (st.wFail = true) from by rw [hw]; simp)]
  unfold openSetup strCpy FS_MAX_FILENAME
  dsimp only
  rw [List.take_of_length_le (by omega : (p0 :: prest).length ≤ 20 - 1), upd_same]
  dsimp only
  rw [if_neg (fun hc => hc hnoapp)]

/-- `fs_open` on a mounted volume whose directory slot 0 holds the requested
file, with descriptor 0 free and neither `TRUNC` nor `APPEND` requested. -/
lemma fsOpen_existing (st : FsState) (p0 : Nat) (prest : List Nat) (flags : Nat)
    (hm : st.mounted = true)
    (hhead : ¬ p0 = 47)
    (hfd : (st.openFiles 0).inUse = false)
    (hfile : (st.rootDir 0).name = p0 :: prest)
    (htrunc : flags &&& FS_O_TRUNC = 0)
    (hnoapp : flags &&& FS_O_APPEND = 0) :
    fsOpen st (p0 :: prest) flags =
      some (0, { st with
        openFiles :=
          upd st.openFiles 0
            ⟨true, 0, (st.rootDir 0).size, 0, (st.rootDir 0).firstCluster, flags⟩ }) := by
  unfold fsOpen
  rw [if_neg (show ¬ (st.mounted = false) from by rw [hm]; simp)]
  rw [show (p0 :: prest).headD 0 = p0 from rfl]
  rw [if_neg hhead]
  dsimp only
  rw [findFreeFd_zero st hfd]
  dsimp only
  rw [findFile_at_zero st _ hfile (by simp)]
  dsimp only
  rw [if_neg (fun hc => hc.1 htrunc)]
  unfold openSetup
  rw [if_neg (fun hc => hc hnoapp)]

/-- C1: TinyFS write/read round trip.  On a freshly formatted disk of at
least 32 sectors with a healthy block device, for every byte string `B` that
fits in the free clusters and every valid filename (non-empty, shorter than
the 20-byte name buffer, not starting with `/`), the sequence
`format; open(W|C); write B; close; open(R); read |B|; size` returns the full
write count `|B|`, the full read count `|B|`, the bytes `B` themselves and
size `|B|`. -/
theorem tinyfs_write_read_roundtrip (cap : Nat) (d0 : Nat → Nat → Nat)
    (name B : List Nat)
    (hcap : 32 ≤ cap)
    (hname1 : name ≠ []) (hname2 : name.length < FS_MAX_FILENAME)
    (hname3 : name.headD 0 ≠ 47)
    (hfit : B.length ≤
      (min ((cap - DATA_START_SECTOR) / FS_SECTORS_PER_CLUSTER) 2048 - 1) *
        FS_CLUSTER_SIZE) :
    roundTrip cap d0 name B =
      some ((B.length : Int), (B.length : Int), B, (B.length : Int)) := by
  obtain ⟨p0, prest, rfl⟩ : ∃ a t, name = a :: t := by
    cases name with
    | nil => exact absurd rfl hname1
    | cons a t => exact ⟨a, t, rfl⟩
  have hp47 : ¬ p0 = 47 := by simpa using hname3
  have hds : DATA_START_SECTOR = 13 := rfl
  have hsc : FS_SECTORS_PER_CLUSTER = 4 := rfl
  rw [show FS_MAX_FILENAME = 20 from rfl] at hname2
  rw [show FS_CLUSTER_SIZE = 2048 from rfl] at hfit
  set T := min ((cap - DATA_START_SECTOR) / FS_SECTORS_PER_CLUSTER) 2048 with hTdef
  have hT2048 : T ≤ 2048 := by rw [hTdef]; exact min_le_right _ _
  have hT2 : 2 ≤ T := by rw [hTdef, hds, hsc]; omega
  have hfitmax : B.length ≤ 2047 * 2048 := by
    have h1 : (T - 1) * 2048 ≤ 2047 * 2048 := by omega
    omega
  have hfmt : fsFormat cap d0 false false =
      some ⟨true, T, T - 1, fun i => if i = 0 then FAT_EOF else FAT_FREE,
        fun _ => ⟨[], 0, 0⟩, fun _ => ⟨false, 0, 0, 0, 0, 0⟩, d0, false, false⟩ := by
    unfold fsFormat
    rw [if_neg (by omega : ¬ cap < 32), if_neg (by simp : ¬ (false = true)), hTdef]
  unfold roundTrip
  rw [hfmt]
  dsimp only
  rw [fsOpen_create
    (⟨true, T, T - 1, fun i => if i = 0 then FAT_EOF else FAT_FREE,
      fun _ => ⟨[], 0, 0⟩, fun _ => ⟨false, 0, 0, 0, 0, 0⟩, d0, false, false⟩ : FsState)
    p0 prest (FS_O_WRITE ||| FS_O_CREATE) rfl rfl hp47 rfl (fun i _ => rfl)
    (by decide) (by decide) (by omega)]
  dsimp only
  -- the write
  obtain ⟨dat2, hloopW, hdat2⟩ := fsWriteLoop_roundtrip T 0 (p0 :: prest) B hT2048
    B.length B.length 0 true
    (upd (fun _ => ⟨[], 0, 0⟩) 0 ⟨p0 :: prest, 0, FAT_EOF⟩)
    (upd (fun _ => ⟨false, 0, 0, 0, 0, 0⟩) 0
      ⟨true, 0, 0, 0, FAT_EOF, FS_O_WRITE ||| FS_O_CREATE⟩)
    d0 (FS_O_WRITE ||| FS_O_CREATE)
    (le_refl _) (by omega) (fun _ => rfl) (upd_same _ 0 _)
    (fun i hi => absurd hi (by omega))
  rw [show clusterHead 0 = FAT_EOF from rfl, show numClusters 0 = 0 from rfl,
    Nat.sub_zero, ← chainFat_zero] at hloopW
  simp only [Nat.zero_add] at hloopW hdat2
  rw [upd_upd_same] at hloopW
  unfold fsWrite
  rw [if_neg (by decide : ¬ FS_MAX_OPEN ≤ 0)]
  dsimp only
  rw [upd_same]
  dsimp only
  rw [if_neg (by simp : ¬ (true = false)),
    if_neg (by decide : ¬ (FS_O_WRITE ||| FS_O_CREATE) &&& FS_O_WRITE = 0)]
  rw [hloopW]
  dsimp only
  rw [upd_upd_same]
  -- the close
  unfold fsClose
  rw [if_neg (by decide : ¬ FS_MAX_OPEN ≤ 0)]
  dsimp only
  rw [upd_same]
  dsimp only
  rw [if_neg (by simp : ¬ (true = false))]
  dsimp only
  rw [upd_upd_same]
  -- the reopen for reading
  rw [fsOpen_existing
    (⟨true, T, T - 1 - numClusters B.length, chainFat (numClusters B.length),
      upd (fun _ => ⟨[], 0, 0⟩) 0 ⟨p0 :: prest, B.length, clusterHead B.length⟩,
      upd (fun _ => ⟨false, 0, 0, 0, 0, 0⟩) 0
        ⟨false, 0, B.length, B.length, clusterHead B.length,
          FS_O_WRITE ||| FS_O_CREATE⟩,
      dat2, false, false⟩ : FsState)
    p0 prest FS_O_READ rfl hp47 rfl rfl (by decide) (by decide)]
  dsimp only
  rw [upd_same, upd_upd_same]
  dsimp only
  -- the read
  have hloopR := fsReadLoop_roundtrip B.length 0 FS_O_READ B true T
    (T - 1 - numClusters B.length)
    (upd (fun _ => ⟨[], 0, 0⟩) 0 ⟨p0 :: prest, B.length, clusterHead B.length⟩)
    (upd (fun _ => ⟨false, 0, 0, 0, 0, 0⟩) 0
      ⟨true, 0, B.length, 0, clusterHead B.length, FS_O_READ⟩)
    dat2 hfitmax hdat2 B.length B.length 0 [] (le_refl _) (Nat.zero_add _) (fun _ => rfl)
  simp only [Nat.zero_add, List.nil_append] at hloopR
  rw [getD_range_map] at hloopR
  unfold fsRead
  rw [if_neg (by decide : ¬ FS_MAX_OPEN ≤ 0)]
  dsimp only
  rw [upd_same]
  dsimp only
  rw [if_neg (by simp : ¬ (true = false)),
    if_neg (by decide : ¬ FS_O_READ &&& FS_O_READ = 0)]
  rw [hloopR]
  dsimp only
  rw [upd_upd_same]
  -- the size
  unfold fsSize
  rw [if_neg (by decide : ¬ FS_MAX_OPEN ≤ 0)]
  dsimp only
  rw [upd_same]
  dsimp only
  rw [if_neg (by simp : ¬ (true = false))]

/-- Witness for C1: the spec's own example, `"hello"` under filename `"a"` on
a 32-sector disk. -/
theorem tinyfs_write_read_roundtrip_witness :
    roundTrip 32 (fun _ _ => 0) [97] [104, 101, 108, 108, 111] =
      some ((5 : Int), (5 : Int), [104, 101, 108, 108, 111], (5 : Int)) :=
  tinyfs_write_read_roundtrip 32 (fun _ _ => 0) [97] [104, 101, 108, 108, 111]
    (by decide) (by decide) (by decide) (by decide) (by decide)

end Fs
